import Mathlib

/-!
Verification of the session/message/artifact cache layer of the multimodal
chatbot backend.

The development shallowly embeds:
  * the entity data model (`app/models/object_models.py`),
  * the Redis cache layer (`app/services/storage/redis_cache.py`),
  * the session assembler (`app/services/chat/session_service.py`),
  * the message-service session-update rule
    (`app/services/chat/message_service.py`).

The backing store is modelled as a partial map from string keys to typed
values (`Store`).  The Python code stores JSON strings and deserializes on
read; here the store holds the already-typed value, and a read that in
Python would fail deserialization (a value of the wrong shape under a key)
yields the same result the Python error-handling path produces for the
operation in question (reads collapse to not-found / index reads reset to
the empty list exactly where the Python code catches the parse error).
TTLs are not modelled: no claim concerns expiry.
-/

namespace MMChat

/-- Artifact type discriminator (`BaseArtifact.type` restricted to the four
variants of the `Artifact` union in `object_models.py`). -/
inductive ArtifactKind where
  | image
  | csv
  | text
  | code
deriving DecidableEq, Repr

/-- Embedding of `Artifact` union member from `object_models.py`, collapsed to the fields
shared by the four variants (the variant-specific metadata fields play no
role in the cache layer). -/
structure Artifact where
  artifactId : String
  kind : ArtifactKind
  data : String
  url : Option String
  description : Option String
deriving DecidableEq, Repr

/-- Message role (`Literal["user", "assistant", "system", "tool"]`). -/
inductive Role where
  | user
  | assistant
  | system
  | tool
deriving DecidableEq, Repr

/-- Embedding of `Message` from `object_models.py`.  `timestamp` is modelled as a `Nat`
tick.  `artifacts` is `Optional[List[Artifact]]` in the source, hence
`Option (List Artifact)` here (None and the empty list are distinct values
but both falsy in the Python truthiness tests). -/
structure Message where
  messageId : String
  sessionId : String
  role : Role
  timestamp : Nat
  content : String
  artifacts : Option (List Artifact)
deriving DecidableEq, Repr

/-- Embedding of `Session` from `object_models.py`. -/
structure Session where
  sessionId : String
  userId : Option String
  createdAt : Nat
  updatedAt : Nat
  title : Option String
  messages : List Message
  numMessages : Nat
deriving DecidableEq, Repr

/-- Embedding of `SessionInfo` from `object_models.py` (denormalized summary stored in
the user→sessions index). -/
structure SessionInfo where
  sessionId : String
  userId : Option String
  createdAt : Nat
  updatedAt : Nat
  title : Option String
  numMessages : Nat
  numArtifacts : Nat
deriving DecidableEq, Repr

/-- Embedding of `SessionResponse` from `app/model/response_models.py` as assembled by
`SessionService.get_complete_session`. -/
structure SessionResponse where
  sessionId : String
  userId : Option String
  createdAt : Nat
  updatedAt : Nat
  title : Option String
  messages : List Message
  numMessages : Nat
deriving DecidableEq, Repr

/-- A typed value stored under a Redis key.  The Python layer stores the
JSON serialization; the shape (entity vs. id-list vs. summary-list) is what
the corresponding read path expects to parse back. -/
inductive Val where
  | vsession : Session → Val
  | vmessage : Message → Val
  | vartifact : Artifact → Val
  | vinfos : List SessionInfo → Val
  | vids : List String → Val
deriving DecidableEq, Repr

/-- The backing key/value store (Redis restricted to the operations the
cache layer uses: get / setex / delete). -/
def Store := String → Option Val

/-- Embedding of `redis.setex` (TTL dropped). -/
def setKey (st : Store) (k : String) (v : Val) : Store :=
  fun q => if q = k then some v else st q

/-- Embedding of `redis.delete`, returning the updated store and the number of keys
removed (`int(self.redis.delete(key))`: 1 if the key existed, else 0). -/
def delKey (st : Store) (k : String) : Store × Nat :=
  (fun q => if q = k then none else st q, if (st k).isSome then 1 else 0)

/-! Key builders (`RedisCache.k_*`), with the default key namespace
`chatapp:prod:` baked in. -/

/-- Embedding of `RedisCache.k_session`. -/
def k_session (session_id : String) : String :=
  "chatapp:prod:session:" ++ session_id

/-- Embedding of `RedisCache.k_message`. -/
def k_message (message_id : String) : String :=
  "chatapp:prod:message:" ++ message_id

/-- Embedding of `RedisCache.k_artifact`. -/
def k_artifact (artifact_id : String) : String :=
  "chatapp:prod:artifact:" ++ artifact_id

/-- Embedding of `RedisCache.k_session_index_by_user`. -/
def k_session_index_by_user (user_id : String) : String :=
  "chatapp:prod:session_index:user:" ++ user_id

/-- Embedding of `RedisCache.k_message_index_by_session`. -/
def k_message_index_by_session (session_id : String) : String :=
  "chatapp:prod:message_index:session:" ++ session_id

/-- Embedding of `RedisCache.k_artifact_index_by_message`. -/
def k_artifact_index_by_message (message_id : String) : String :=
  "chatapp:prod:artifact_index:message:" ++ message_id

/-! Cache-layer operations (`RedisCache`, `redis_cache.py`). -/

/-- Embedding of `RedisCache._validate_ownership`, specialized to the single attribute
each call site checks (`userId` for sessions, `sessionId` for messages).
A falsy `owner_id` (absent, or the empty string) means public access. -/
def validate_ownership (item_owner : Option String) (owner_id : Option String) : Bool :=
  match owner_id with
  | none => true
  | some o => if o = "" then true else item_owner = some o

/-- Python truthiness of `session.userId` (`Optional[str]`). -/
def user_id_truthy (userId : Option String) : Bool :=
  match userId with
  | none => false
  | some u => u ≠ ""

/-- Python truthiness of `message.artifacts` (`Optional[List[Artifact]]`). -/
def artifacts_truthy (artifacts : Option (List Artifact)) : Bool :=
  match artifacts with
  | none => false
  | some l => !l.isEmpty

/-- Embedding of `RedisCache.get_session`. -/
def get_session (st : Store) (session_id : String) (user_id : Option String) :
    Option Session :=
  match st (k_session session_id) with
  | some (.vsession s) =>
      if validate_ownership s.userId user_id then some s else none
  | _ => none

/-- Embedding of `RedisCache.get_message`. -/
def get_message (st : Store) (message_id : String) (session_id : Option String) :
    Option Message :=
  match st (k_message message_id) with
  | some (.vmessage m) =>
      if validate_ownership (some m.sessionId) session_id then some m else none
  | _ => none

/-- Embedding of `RedisCache._add_session_to_user_index`: replace the first entry with the
same `sessionId` (Python loops and `break`s on the first hit); `none` when no
entry matches. -/
def replace_first_info : List SessionInfo → SessionInfo → Option (List SessionInfo)
  | [], _ => none
  | it :: rest, info =>
      if it.sessionId = info.sessionId then some (info :: rest)
      else match replace_first_info rest info with
        | some r => some (it :: r)
        | none => none

/-- The `List[SessionInfo]` a user-index read yields before modification:
an absent key, or a payload that fails to parse, resets to `[]` (the Python
code logs and keeps `items = []`). -/
def user_index_items (st : Store) (user_id : String) : List SessionInfo :=
  match st (k_session_index_by_user user_id) with
  | some (.vinfos l) => l
  | _ => []

/-- Embedding of `RedisCache._add_session_to_user_index`. -/
def add_session_to_user_index (st : Store) (user_id : String) (info : SessionInfo) :
    Store :=
  let items := user_index_items st user_id
  let items2 := match replace_first_info items info with
    | some r => r
    | none => items ++ [info]
  setKey st (k_session_index_by_user user_id) (.vinfos items2)

/-- Embedding of `RedisCache._remove_session_from_user_index`: absent or unparsable payload
leaves the store untouched, otherwise the filtered list is written back. -/
def remove_session_from_user_index (st : Store) (user_id : String)
    (session_id : String) : Store :=
  match st (k_session_index_by_user user_id) with
  | some (.vinfos l) =>
      setKey st (k_session_index_by_user user_id)
        (.vinfos (l.filter (fun i => i.sessionId ≠ session_id)))
  | _ => st

/-- Embedding of `RedisCache.get_sessions_for_user`. -/
def get_sessions_for_user (st : Store) (user_id : String) :
    Option (List SessionInfo) :=
  match st (k_session_index_by_user user_id) with
  | some (.vinfos l) => some l
  | _ => none

/-- The `List[str]` a message-index read inside
`_add_message_to_session_index` yields: absent or unparsable resets to `[]`. -/
def message_index_ids (st : Store) (session_id : String) : List String :=
  match st (k_message_index_by_session session_id) with
  | some (.vids l) => l
  | _ => []

/-- Embedding of `RedisCache._add_message_to_session_index` (append only when the id is
not already present). -/
def add_message_to_session_index (st : Store) (session_id : String)
    (message_id : String) : Store :=
  let ids := message_index_ids st session_id
  let ids2 := if message_id ∈ ids then ids else ids ++ [message_id]
  setKey st (k_message_index_by_session session_id) (.vids ids2)

/-- Embedding of `RedisCache._remove_message_from_session_index`. -/
def remove_message_from_session_index (st : Store) (session_id : String)
    (message_id : String) : Store :=
  match st (k_message_index_by_session session_id) with
  | some (.vids l) =>
      setKey st (k_message_index_by_session session_id)
        (.vids (l.filter (fun i => i ≠ message_id)))
  | _ => st

/-- Embedding of `RedisCache.get_message_ids_for_session`: validates session ownership
first when a `user_id` argument was passed (`is not None` — an empty string
still triggers the fetch, whose ownership check then treats it as public). -/
def get_message_ids_for_session (st : Store) (session_id : String)
    (user_id : Option String) : Option (List String) :=
  let authorized := match user_id with
    | none => true
    | some u => (get_session st session_id (some u)).isSome
  if authorized then
    match st (k_message_index_by_session session_id) with
    | some (.vids l) => some l
    | _ => none
  else none

/-- Embedding of `RedisCache._add_artifact_to_message_index`. -/
def add_artifact_to_message_index (st : Store) (message_id : String)
    (artifact_id : String) : Store :=
  let ids := match st (k_artifact_index_by_message message_id) with
    | some (.vids l) => l
    | _ => []
  let ids2 := if artifact_id ∈ ids then ids else ids ++ [artifact_id]
  setKey st (k_artifact_index_by_message message_id) (.vids ids2)

/-- Embedding of `RedisCache._remove_artifact_from_message_index`. -/
def remove_artifact_from_message_index (st : Store) (message_id : String)
    (artifact_id : String) : Store :=
  match st (k_artifact_index_by_message message_id) with
  | some (.vids l) =>
      setKey st (k_artifact_index_by_message message_id)
        (.vids (l.filter (fun i => i ≠ artifact_id)))
  | _ => st

/-- Embedding of `RedisCache.get_artifact_ids_for_message`. -/
def get_artifact_ids_for_message (st : Store) (message_id : String)
    (session_id : Option String) : Option (List String) :=
  let authorized := match session_id with
    | none => true
    | some s => (get_message st message_id (some s)).isSome
  if authorized then
    match st (k_artifact_index_by_message message_id) with
    | some (.vids l) => some l
    | _ => none
  else none

/-- Embedding of `RedisCache.save_artifact`. -/
def save_artifact (st : Store) (artifact : Artifact) : Store :=
  setKey st (k_artifact artifact.artifactId) (.vartifact artifact)

/-- Embedding of `RedisCache.get_artifact`: when a `message_id` is supplied, the artifact
must additionally appear in that message's artifact-index. -/
def get_artifact (st : Store) (artifact_id : String) (message_id : Option String) :
    Option Artifact :=
  match st (k_artifact artifact_id) with
  | some (.vartifact a) =>
      match message_id with
      | none => some a
      | some mid =>
          match get_artifact_ids_for_message st mid none with
          | none => none
          | some ids => if artifact_id ∈ ids then some a else none
  | _ => none

/-- Embedding of `RedisCache.delete_artifact`. -/
def delete_artifact (st : Store) (artifact_id : String) (message_id : Option String) :
    Store × Nat :=
  match get_artifact st artifact_id message_id with
  | none => (st, 0)
  | some _ =>
      let st1 := match message_id with
        | some mid => remove_artifact_from_message_index st mid artifact_id
        | none => st
      delKey st1 (k_artifact artifact_id)

/-- The `for art in message.artifacts` loop of `RedisCache.save_message`. -/
def save_artifacts_loop (message_id : String) : List Artifact → Store → Store
  | [], st => st
  | art :: rest, st =>
      save_artifacts_loop message_id rest
        (add_artifact_to_message_index (save_artifact st art)
          message_id art.artifactId)

/-- Embedding of `RedisCache.save_message`: write the record, index the id under its
session, and on cascade persist and index each attached artifact. -/
def save_message (st : Store) (message : Message) (cascade : Bool) : Store :=
  let st1 := setKey st (k_message message.messageId) (.vmessage message)
  let st2 := add_message_to_session_index st1 message.sessionId message.messageId
  if cascade && artifacts_truthy message.artifacts then
    save_artifacts_loop message.messageId (message.artifacts.getD []) st2
  else st2

/-- The `for aid in art_ids` loop of `RedisCache.delete_message`, threading
the store and the running deletion count. -/
def delete_artifacts_loop (message_id : String) :
    List String → Store × Nat → Store × Nat
  | [], p => p
  | aid :: rest, p =>
      let q := delete_artifact p.1 aid (some message_id)
      delete_artifacts_loop message_id rest (q.1, p.2 + q.2)

/-- Embedding of `RedisCache.delete_message`.  On cascade: authorize via `get_message`,
remove the id from the stored message's session index, delete each indexed
artifact, drop the artifact-index key, and finally delete the primary key
(which also happens when the cascade authorization failed).  Without
cascade: authorize, and delete only the primary key. -/
def delete_message (st : Store) (message_id : String) (session_id : Option String)
    (cascade : Bool) : Store × Nat :=
  if cascade then
    match get_message st message_id session_id with
    | some msg =>
        let st1 := remove_message_from_session_index st msg.sessionId message_id
        let aids := (get_artifact_ids_for_message st1 message_id none).getD []
        let p := delete_artifacts_loop message_id aids (st1, 0)
        let q1 := delKey p.1 (k_artifact_index_by_message message_id)
        let q2 := delKey q1.1 (k_message message_id)
        (q2.1, p.2 + q1.2 + q2.2)
    | none => delKey st (k_message message_id)
  else
    match get_message st message_id session_id with
    | none => (st, 0)
    | some _ => delKey st (k_message message_id)

/-- Embedding of `SessionInfo` summary built inside `RedisCache.save_session`. -/
def mk_session_info (session : Session) : SessionInfo :=
  { sessionId := session.sessionId
    userId := session.userId
    createdAt := session.createdAt
    updatedAt := session.updatedAt
    title := session.title
    numMessages := session.numMessages
    numArtifacts := (session.messages.map (fun m => (m.artifacts.getD []).length)).sum }

/-- The `for msg in session.messages` loop of `RedisCache.save_session`. -/
def save_messages_loop (session_id : String) : List Message → Store → Store
  | [], st => st
  | m :: rest, st =>
      save_messages_loop session_id rest
        (save_message st { m with sessionId := session_id } true)

/-- Embedding of `RedisCache.save_session`: write the record, upsert the summary into the
owning user's index when the session has a truthy `userId`, and on cascade
persist every embedded message (correcting a mismatched `sessionId` first). -/
def save_session (st : Store) (session : Session) (cascade : Bool) : Store :=
  let st1 := setKey st (k_session session.sessionId) (.vsession session)
  let st2 := if user_id_truthy session.userId then
      add_session_to_user_index st1 (session.userId.getD "") (mk_session_info session)
    else st1
  if cascade then
    save_messages_loop session.sessionId session.messages st2
  else st2

/-- The `for mid in msg_ids` loop of `RedisCache.delete_session`, threading
the store and the running deletion count. -/
def delete_messages_loop (session_id : String) :
    List String → Store × Nat → Store × Nat
  | [], p => p
  | mid :: rest, p =>
      let q := delete_message p.1 mid (some session_id) true
      delete_messages_loop session_id rest (q.1, p.2 + q.2)

/-- Embedding of `RedisCache.delete_session`.  With cascade: authorize via `get_session`;
on success remove the session from its owner's index, cascade-delete every
indexed message, drop the message-index key, and delete the primary key; on
authorization failure the cascade block is skipped but the primary key is
still deleted.  Without cascade: authorize, and on failure return 0 without
touching the store. -/
def delete_session (st : Store) (session_id : String) (user_id : Option String)
    (cascade : Bool) : Store × Nat :=
  if cascade then
    match get_session st session_id user_id with
    | some s =>
        let st1 := if user_id_truthy s.userId then
            remove_session_from_user_index st (s.userId.getD "") s.sessionId
          else st
        let mids := (get_message_ids_for_session st1 session_id none).getD []
        let p := delete_messages_loop session_id mids (st1, 0)
        let q1 := delKey p.1 (k_message_index_by_session session_id)
        let q2 := delKey q1.1 (k_session session_id)
        (q2.1, p.2 + q1.2 + q2.2)
    | none => delKey st (k_session session_id)
  else
    match get_session st session_id user_id with
    | none => (st, 0)
    | some _ => delKey st (k_session session_id)

/-! Session assembler (`SessionService`, `session_service.py`). -/

/-- Embedding of `SessionService._batch_fetch_messages`: one MGET over the message keys;
a missing record, a parse failure, or a session back-reference mismatch is
skipped (logged and dropped), the rest are kept in index order. -/
def batch_fetch_messages (st : Store) (message_ids : List String)
    (session_id : String) : List Message :=
  message_ids.filterMap (fun mid =>
    match st (k_message mid) with
    | some (.vmessage m) => if m.sessionId = session_id then some m else none
    | _ => none)

/-- One entry of the lookup table `SessionService._batch_fetch_artifacts`
builds from its MGET: a missing or unparsable record contributes nothing. -/
def fetch_artifact (st : Store) (artifact_id : String) : Option Artifact :=
  match st (k_artifact artifact_id) with
  | some (.vartifact a) => some a
  | _ => none

/-- Lookup in the `message_to_artifact_ids` dict built by iteration (later
insertions overwrite earlier ones, as in a Python dict). -/
def last_assoc (ps : List (String × List String)) (k : String) :
    Option (List String) :=
  ps.foldl (fun acc p => if p.1 = k then some p.2 else acc) none

/-- Embedding of `SessionService._attach_artifacts_to_messages`: collect each message's
artifact-index (messages with a falsy index contribute nothing), batch-fetch
the union of artifact ids, and give every message the artifacts its index
lists and the fetch found. -/
def attach_artifacts_to_messages (st : Store) (messages : List Message) :
    List Message :=
  if messages.isEmpty then []
  else
    let mta := messages.foldl
      (fun acc m =>
        match get_artifact_ids_for_message st m.messageId none with
        | some ids => if ids.isEmpty then acc else acc ++ [(m.messageId, ids)]
        | none => acc)
      []
    if mta.isEmpty then messages.map (fun m => { m with artifacts := some [] })
    else
      messages.map (fun m =>
        let ids := (last_assoc mta m.messageId).getD []
        { m with artifacts := some (ids.filterMap (fetch_artifact st)) })

/-- Embedding of `SessionService.get_complete_session` at
`include_only_for_frontend=False`.  (The frontend-filter branch calls
`Message.should_display_in_frontend`, a method no class in the repository
defines, so that flag is not modelled; no claim concerns it.)  An empty or
absent message-id list yields the session with zero messages; otherwise the
batch-fetched messages are assembled, `None` when all of them were dropped. -/
def get_complete_session (st : Store) (session_id : String) (user_id : String)
    (include_artifacts : Bool) : Option SessionResponse :=
  match get_session st session_id (some user_id) with
  | none => none
  | some meta =>
      let mids := (get_message_ids_for_session st session_id (some user_id)).getD []
      if mids.isEmpty then
        some { sessionId := meta.sessionId, userId := meta.userId,
               createdAt := meta.createdAt, updatedAt := meta.updatedAt,
               title := meta.title, messages := [], numMessages := 0 }
      else
        let msgs := batch_fetch_messages st mids session_id
        if msgs.isEmpty then none
        else
          let msgs2 := if include_artifacts then
              attach_artifacts_to_messages st msgs
            else msgs
          some { sessionId := meta.sessionId, userId := meta.userId,
                 createdAt := meta.createdAt, updatedAt := meta.updatedAt,
                 title := meta.title, messages := msgs2,
                 numMessages := msgs2.length }

/-! Message service (`MessageService`, `message_service.py`). -/

/-- A character `str.strip()` removes (Python whitespace:
space, tab, newline, carriage return, vertical tab, form feed). -/
def py_ws (c : Char) : Bool :=
  c = ' ' || c = '\t' || c = '\n' || c = '\r' || c = Char.ofNat 11 || c = Char.ofNat 12

/-- Python `str.strip()`. -/
def py_strip (s : String) : String :=
  ⟨((s.data.dropWhile py_ws).reverse.dropWhile py_ws).reverse⟩

/-- The title `MessageService._update_session_after_message` derives from a
message's content: strip, and when the stripped text exceeds 50 characters
keep the first 47 and append an ellipsis. -/
def title_from_content (content : String) : String :=
  let t := py_strip content
  if t.length > 50 then t.take 47 ++ "..." else t

/-- Embedding of `MessageService._update_session_after_message` (the timestamp
`datetime.now()` is passed in as the tick `now`).  If the freshly added
message cannot be fetched back the method returns without saving; otherwise
it refreshes `updatedAt` and the message count, applies the first-user-
message title rule, and saves the session without cascade. -/
def update_session_after_message (st : Store) (session : Session)
    (message_id : String) (now : Nat) : Store :=
  match get_message st message_id (some session.sessionId) with
  | none => st
  | some message =>
      let mids := (get_message_ids_for_session st session.sessionId none).getD []
      let s1 := { session with updatedAt := now, numMessages := mids.length }
      let s2 :=
        if message.role = Role.user ∧ session.title = none then
          let all_messages := mids.filterMap
            (fun mid => get_message st mid (some session.sessionId))
          let previous_user := all_messages.filter
            (fun m => m.role = Role.user ∧ m.messageId ≠ message_id)
          if previous_user.isEmpty then
            { s1 with title := some (title_from_content message.content) }
          else s1
        else s1
      save_session st s2 false

/-! Concrete entities and stores used to evaluate the operations on
explicit inputs. -/

/-- A session record with the given id, owner, and title, and no embedded
messages. -/
def sampleSession (sid : String) (uid : Option String) (title : Option String) :
    Session :=
  { sessionId := sid, userId := uid, createdAt := 0, updatedAt := 0,
    title := title, messages := [], numMessages := 0 }

/-- A message record with the given id, session back-reference, role, and
content, and no embedded artifacts. -/
def sampleMessage (mid sid : String) (role : Role) (content : String) : Message :=
  { messageId := mid, sessionId := sid, role := role, timestamp := 0,
    content := content, artifacts := none }

/-- A text artifact record with the given id. -/
def sampleArtifact (aid : String) : Artifact :=
  { artifactId := aid, kind := .text, data := "d", url := none,
    description := none }

/-- The empty backing store. -/
def emptyStore : Store := fun _ => none

/-- Store holding one session, `s1`, owned by `u1`. -/
def c1_store : Store :=
  setKey emptyStore (k_session "s1") (.vsession (sampleSession "s1" (some "u1") none))

/-- Store holding session `s1` owned by `u1` and message `m1` of `s1`. -/
def c3_store : Store :=
  setKey
    (setKey emptyStore (k_session "s1")
      (.vsession (sampleSession "s1" (some "u1") none)))
    (k_message "m1") (.vmessage (sampleMessage "m1" "s1" .assistant "x"))

/-- Store holding message `m1` of session `s1`, indexed in `s1`'s
message-index. -/
def c4_store : Store :=
  setKey
    (setKey emptyStore (k_message "m1")
      (.vmessage (sampleMessage "m1" "s1" .user "hi")))
    (k_message_index_by_session "s1") (.vids ["m1"])

/-- Store holding message `m1` of session `s1` with message-index `["m1"]`,
artifact `a1` and artifact-index `["a1"]` for `m1` (a fully indexed message,
for exercising the cascade path). -/
def c4w_store : Store :=
  setKey
    (setKey
      (setKey
        (setKey emptyStore (k_message "m1")
          (.vmessage (sampleMessage "m1" "s1" .user "hi")))
        (k_message_index_by_session "s1") (.vids ["m1"]))
      (k_artifact "a1") (.vartifact (sampleArtifact "a1")))
    (k_artifact_index_by_message "m1") (.vids ["a1"])

/-- Store holding artifact `a1` plus an artifact-index for message `m1`
that does not list `a1`. -/
def c5_store : Store :=
  setKey
    (setKey emptyStore (k_artifact "a1") (.vartifact (sampleArtifact "a1")))
    (k_artifact_index_by_message "m1") (.vids ["a2"])

/-- Store holding session `s1` owned by `u1` and message `m1` of `s1`
(for the empty-string-owner probes). -/
def c10_store : Store :=
  setKey
    (setKey emptyStore (k_session "s1")
      (.vsession (sampleSession "s1" (some "u1") none)))
    (k_message "m1") (.vmessage (sampleMessage "m1" "s1" .user "y"))

/-- Store whose user-index for `u1` already lists a summary of session
`s1`. -/
def c8_store : Store :=
  setKey emptyStore (k_session_index_by_user "u1")
    (.vinfos [mk_session_info (sampleSession "s1" (some "u1") none)])

/-- Store holding, for session `s6`: a first user message `m6` with
whitespace-padded content, an assistant message `m7`, and the message-index
listing both. -/
def c6_store : Store :=
  setKey
    (setKey
      (setKey emptyStore (k_message "m6")
        (.vmessage (sampleMessage "m6" "s6" .user " hi")))
      (k_message "m7") (.vmessage (sampleMessage "m7" "s6" .assistant "ok")))
    (k_message_index_by_session "s6") (.vids ["m6", "m7"])

/-- The session record the message service holds when updating `s6`. -/
def c6_session : Session := sampleSession "s6" (some "u1") none

/-- Store for the assembler: session `s9` (owner `u9`) whose message-index
lists `m1`, a dangling `mX`, and `m2`; plus a message-less session `s8`. -/
def c9_store : Store :=
  setKey
    (setKey
      (setKey
        (setKey
          (setKey
            (setKey emptyStore (k_session "s9")
              (.vsession (sampleSession "s9" (some "u9") none)))
            (k_session "s8") (.vsession (sampleSession "s8" (some "u9") none)))
          (k_message_index_by_session "s9") (.vids ["m1", "mX", "m2"]))
        (k_message "m1") (.vmessage (sampleMessage "m1" "s9" .user "q")))
      (k_message "m2") (.vmessage (sampleMessage "m2" "s9" .assistant "r")))
    (k_artifact "a1") (.vartifact (sampleArtifact "a1"))

/-- A consistently stored session for the cascade-completeness scenario:
session `s1` owned by `u1`, indexed in `u1`'s user-index, message-index
`["m1", "m2"]`, both messages present with back-reference `s1`, artifact
`a1` indexed under `m1`, and no artifact-index for `m2`. -/
def c2_store : Store :=
  setKey
    (setKey
      (setKey
        (setKey
          (setKey
            (setKey
              (setKey emptyStore (k_session "s1")
                (.vsession (sampleSession "s1" (some "u1") none)))
              (k_session_index_by_user "u1")
              (.vinfos [mk_session_info (sampleSession "s1" (some "u1") none)]))
            (k_message_index_by_session "s1") (.vids ["m1", "m2"]))
          (k_message "m1") (.vmessage (sampleMessage "m1" "s1" .user "a")))
        (k_message "m2") (.vmessage (sampleMessage "m2" "s1" .assistant "b")))
      (k_artifact "a1") (.vartifact (sampleArtifact "a1")))
    (k_artifact_index_by_message "m1") (.vids ["a1"])

/-- The artifact-id lists of `c2_store`'s messages, as a function. -/
def c2_aids (mid : String) : List String :=
  if mid = "m1" then ["a1"] else []

/-- Two appended strings differ when their left parts differ at a position
defined in both. -/
theorem append_ne_of_ne_at (p q s t : String) (i : Nat)
    (hip : i < p.data.length) (hiq : i < q.data.length)
    (hne : p.data[i]? ≠ q.data[i]?) : p ++ s ≠ q ++ t := by
  intro h
  apply hne
  have hd : p.data ++ s.data = q.data ++ t.data := by
    have := congrArg String.data h
    rwa [String.data_append, String.data_append] at this
  have h1 : (p.data ++ s.data)[i]? = p.data[i]? := List.getElem?_append_left hip
  have h2 : (q.data ++ t.data)[i]? = q.data[i]? := List.getElem?_append_left hiq
  rw [← h1, ← h2, hd]

/-- Appending to a fixed string is injective. -/
theorem append_left_inj {p s t : String} (h : p ++ s = p ++ t) : s = t := by
  have hd := congrArg String.data h
  rw [String.data_append, String.data_append] at hd
  exact String.ext (List.append_cancel_left hd)

theorem k_session_inj {a b : String} (h : k_session a = k_session b) : a = b :=
  append_left_inj h

theorem k_message_inj {a b : String} (h : k_message a = k_message b) : a = b :=
  append_left_inj h

theorem k_artifact_inj {a b : String} (h : k_artifact a = k_artifact b) : a = b :=
  append_left_inj h

theorem k_artifact_index_inj {a b : String}
    (h : k_artifact_index_by_message a = k_artifact_index_by_message b) : a = b :=
  append_left_inj h

theorem k_session_ne_k_message (a b : String) : k_session a ≠ k_message b :=
  append_ne_of_ne_at _ _ _ _ 13 (by decide) (by decide) (by decide)

theorem k_session_ne_k_artifact (a b : String) : k_session a ≠ k_artifact b :=
  append_ne_of_ne_at _ _ _ _ 13 (by decide) (by decide) (by decide)

theorem k_session_ne_k_session_index (a b : String) :
    k_session a ≠ k_session_index_by_user b :=
  append_ne_of_ne_at _ _ _ _ 20 (by decide) (by decide) (by decide)

theorem k_session_ne_k_message_index (a b : String) :
    k_session a ≠ k_message_index_by_session b :=
  append_ne_of_ne_at _ _ _ _ 13 (by decide) (by decide) (by decide)

theorem k_session_ne_k_artifact_index (a b : String) :
    k_session a ≠ k_artifact_index_by_message b :=
  append_ne_of_ne_at _ _ _ _ 13 (by decide) (by decide) (by decide)

theorem k_message_ne_k_artifact (a b : String) : k_message a ≠ k_artifact b :=
  append_ne_of_ne_at _ _ _ _ 13 (by decide) (by decide) (by decide)

theorem k_message_ne_k_session_index (a b : String) :
    k_message a ≠ k_session_index_by_user b :=
  append_ne_of_ne_at _ _ _ _ 13 (by decide) (by decide) (by decide)

theorem k_message_ne_k_message_index (a b : String) :
    k_message a ≠ k_message_index_by_session b :=
  append_ne_of_ne_at _ _ _ _ 20 (by decide) (by decide) (by decide)

theorem k_message_ne_k_artifact_index (a b : String) :
    k_message a ≠ k_artifact_index_by_message b :=
  append_ne_of_ne_at _ _ _ _ 13 (by decide) (by decide) (by decide)

theorem k_artifact_ne_k_session_index (a b : String) :
    k_artifact a ≠ k_session_index_by_user b :=
  append_ne_of_ne_at _ _ _ _ 13 (by decide) (by decide) (by decide)

theorem k_artifact_ne_k_message_index (a b : String) :
    k_artifact a ≠ k_message_index_by_session b :=
  append_ne_of_ne_at _ _ _ _ 13 (by decide) (by decide) (by decide)

theorem k_artifact_ne_k_artifact_index (a b : String) :
    k_artifact a ≠ k_artifact_index_by_message b :=
  append_ne_of_ne_at _ _ _ _ 21 (by decide) (by decide) (by decide)

theorem k_session_index_ne_k_message_index (a b : String) :
    k_session_index_by_user a ≠ k_message_index_by_session b :=
  append_ne_of_ne_at _ _ _ _ 13 (by decide) (by decide) (by decide)

theorem k_session_index_ne_k_artifact_index (a b : String) :
    k_session_index_by_user a ≠ k_artifact_index_by_message b :=
  append_ne_of_ne_at _ _ _ _ 13 (by decide) (by decide) (by decide)

theorem k_message_index_ne_k_artifact_index (a b : String) :
    k_message_index_by_session a ≠ k_artifact_index_by_message b :=
  append_ne_of_ne_at _ _ _ _ 13 (by decide) (by decide) (by decide)

theorem setKey_same (st : Store) (k : String) (v : Val) : setKey st k v k = some v := by
  simp [setKey]

theorem setKey_other (st : Store) (k : String) (v : Val) (q : String) (h : q ≠ k) :
    setKey st k v q = st q := by
  simp [setKey, h]

theorem delKey_fst_same (st : Store) (k : String) : (delKey st k).1 k = none := by
  simp [delKey]

theorem delKey_fst_other (st : Store) (k q : String) (h : q ≠ k) :
    (delKey st k).1 q = st q := by
  simp [delKey, h]

theorem get_session_congr {st1 st2 : Store} (sid : String) (u : Option String)
    (h : st1 (k_session sid) = st2 (k_session sid)) :
    get_session st1 sid u = get_session st2 sid u := by
  unfold get_session
  rw [h]

theorem get_message_congr {st1 st2 : Store} (mid : String) (s : Option String)
    (h : st1 (k_message mid) = st2 (k_message mid)) :
    get_message st1 mid s = get_message st2 mid s := by
  unfold get_message
  rw [h]

theorem remove_artifact_from_message_index_other (st : Store)
    (mid aid k : String) (h : k ≠ k_artifact_index_by_message mid) :
    remove_artifact_from_message_index st mid aid k = st k := by
  unfold remove_artifact_from_message_index
  cases hv : st (k_artifact_index_by_message mid) with
  | none => rfl
  | some v => cases v <;> simp [setKey, h]

theorem remove_message_from_session_index_other (st : Store)
    (sid mid k : String) (h : k ≠ k_message_index_by_session sid) :
    remove_message_from_session_index st sid mid k = st k := by
  unfold remove_message_from_session_index
  cases hv : st (k_message_index_by_session sid) with
  | none => rfl
  | some v => cases v <;> simp [setKey, h]

theorem remove_session_from_user_index_other (st : Store)
    (uid sid k : String) (h : k ≠ k_session_index_by_user uid) :
    remove_session_from_user_index st uid sid k = st k := by
  unfold remove_session_from_user_index
  cases hv : st (k_session_index_by_user uid) with
  | none => rfl
  | some v => cases v <;> simp [setKey, h]

theorem remove_message_from_session_index_at (st : Store) (sid mid : String)
    (L : List String) (h : st (k_message_index_by_session sid) = some (.vids L)) :
    remove_message_from_session_index st sid mid (k_message_index_by_session sid)
      = some (.vids (L.filter (fun i => i ≠ mid))) := by
  unfold remove_message_from_session_index
  rw [h]
  simp [setKey]

theorem delete_artifact_frame (st : Store) (aid mid k : String)
    (h1 : k ≠ k_artifact aid) (h2 : k ≠ k_artifact_index_by_message mid) :
    (delete_artifact st aid (some mid)).1 k = st k := by
  unfold delete_artifact
  cases hga : get_artifact st aid (some mid) with
  | none => rfl
  | some a =>
      show (delKey (remove_artifact_from_message_index st mid aid)
        (k_artifact aid)).1 k = st k
      rw [delKey_fst_other _ _ _ h1,
        remove_artifact_from_message_index_other _ _ _ _ h2]

theorem delete_artifacts_loop_frame (mid : String) (aids : List String)
    (k : String) (h2 : k ≠ k_artifact_index_by_message mid) :
    ∀ p : Store × Nat, (∀ a ∈ aids, k ≠ k_artifact a) →
      (delete_artifacts_loop mid aids p).1 k = p.1 k := by
  induction aids with
  | nil =>
      intro p _
      rfl
  | cons a rest ih =>
      intro p h1
      have hstep : (delete_artifact p.1 a (some mid)).1 k = p.1 k :=
        delete_artifact_frame _ _ _ _ (h1 a (by simp)) h2
      calc (delete_artifacts_loop mid (a :: rest) p).1 k
          = (delete_artifacts_loop mid rest
              ((delete_artifact p.1 a (some mid)).1,
                p.2 + (delete_artifact p.1 a (some mid)).2)).1 k := rfl
        _ = (delete_artifact p.1 a (some mid)).1 k :=
              ih _ (fun b hb => h1 b (by simp [hb]))
        _ = p.1 k := hstep

/-- C1: the spec requires `deleteSession` to be a no-op returning zero when
the authorizing `getSession` fails, for either cascade flag, and the
non-cascade path indeed behaves that way; but with `cascade=true` the code
skips only the cascade block and still deletes the primary session key.  On
a store holding session `s1` owned by `u1`, `delete_session("s1", "u2",
cascade=true)` reports one deleted key, removes the session record, and the
true owner can no longer fetch it. -/
theorem c1_unauthorized_cascade_delete_removes_session :
    get_session c1_store "s1" (some "u1")
        = some (sampleSession "s1" (some "u1") none) ∧
    get_session c1_store "s1" (some "u2") = none ∧
    (delete_session c1_store "s1" (some "u2") false).2 = 0 ∧
    (delete_session c1_store "s1" (some "u2") false).1 (k_session "s1")
        = some (.vsession (sampleSession "s1" (some "u1") none)) ∧
    (delete_session c1_store "s1" (some "u2") true).2 = 1 ∧
    (delete_session c1_store "s1" (some "u2") true).1 (k_session "s1") = none ∧
    get_session (delete_session c1_store "s1" (some "u2") true).1 "s1"
        (some "u1") = none := by
  decide

/-- C3: `getSession` returns not-found both when the session key is absent
and when the stored owner differs from a genuinely supplied (non-falsy)
owner id, and the two outcomes are the same value `none` — the embedding is
a total function into `Option`, with no thrown error and no distinct
forbidden result; analogously `getMessage` with a supplied session id. -/
theorem c3_absence_and_mismatch_collapse (st : Store) (sid mid u v : String)
    (s : Session) (m : Message) (hu : u ≠ "") (hv : v ≠ "") :
    (st (k_session sid) = none → ∀ w, get_session st sid w = none) ∧
    (st (k_session sid) = some (.vsession s) → s.userId ≠ some u →
      get_session st sid (some u) = none) ∧
    (st (k_message mid) = none → ∀ w, get_message st mid w = none) ∧
    (st (k_message mid) = some (.vmessage m) → m.sessionId ≠ v →
      get_message st mid (some v) = none) := by
  refine ⟨?_, ?_, ?_, ?_⟩
  · intro h w
    simp [get_session, h]
  · intro h hne
    simp [get_session, h, validate_ownership, hu, hne]
  · intro h w
    simp [get_message, h]
  · intro h hne
    simp [get_message, h, validate_ownership, hv, hne]

/-- C3 witness: on `c3_store`, an absent session id, an ownership mismatch
on `s1`, an absent message id, and a session-reference mismatch on `m1` all
yield `none`. -/
theorem c3_witness :
    get_session c3_store "sX" (some "u2") = none ∧
    get_session c3_store "s1" (some "u2") = none ∧
    get_message c3_store "mX" none = none ∧
    get_message c3_store "m1" (some "s2") = none := by
  refine ⟨?_, ?_, ?_, ?_⟩
  · exact (c3_absence_and_mismatch_collapse c3_store "sX" "mX" "u2" "s2"
      (sampleSession "s1" (some "u1") none) (sampleMessage "m1" "s1" .assistant "x")
      (by decide) (by decide)).1 (by decide) (some "u2")
  · exact (c3_absence_and_mismatch_collapse c3_store "s1" "m1" "u2" "s2"
      (sampleSession "s1" (some "u1") none) (sampleMessage "m1" "s1" .assistant "x")
      (by decide) (by decide)).2.1 (by decide) (by decide)
  · exact (c3_absence_and_mismatch_collapse c3_store "sX" "mX" "u2" "s2"
      (sampleSession "s1" (some "u1") none) (sampleMessage "m1" "s1" .assistant "x")
      (by decide) (by decide)).2.2.1 (by decide) none
  · exact (c3_absence_and_mismatch_collapse c3_store "s1" "m1" "u2" "s2"
      (sampleSession "s1" (some "u1") none) (sampleMessage "m1" "s1" .assistant "x")
      (by decide) (by decide)).2.2.2 (by decide) (by decide)

/-- C4 counterexample: the claim asserts the message id leaves the session's
message-index for both cascade flags, but with `cascade=false` the code
deletes only the primary key.  On a store holding message `m1` of `s1`
(indexed), the authorized `delete_message("m1", "s1", cascade=false)`
removes the record yet `"m1"` is still listed in `s1`'s message-index. -/
theorem c4_counterexample_noncascade_keeps_index_entry :
    get_message c4_store "m1" (some "s1")
        = some (sampleMessage "m1" "s1" .user "hi") ∧
    (delete_message c4_store "m1" (some "s1") false).2 = 1 ∧
    (delete_message c4_store "m1" (some "s1") false).1 (k_message "m1") = none ∧
    (delete_message c4_store "m1" (some "s1") false).1
        (k_message_index_by_session "s1") = some (.vids ["m1"]) := by
  decide

/-- C4 amended: for a stored message the supplied session id authorizes,
`deleteMessage` with `cascade=true` rewrites the session's message-index to
the old list with the message id filtered out (so the id no longer appears),
while with `cascade=false` it deletes only the primary record and the
message-index is left unchanged, the id still present if it was. -/
theorem c4_amended_index_removal_only_on_cascade (st : Store)
    (mid sid : String) (msg : Message) (L : List String)
    (hm : st (k_message mid) = some (.vmessage msg))
    (hsid : msg.sessionId = sid)
    (hidx : st (k_message_index_by_session sid) = some (.vids L)) :
    (delete_message st mid (some sid) true).1 (k_message_index_by_session sid)
        = some (.vids (L.filter (fun i => i ≠ mid))) ∧
    mid ∉ L.filter (fun i => i ≠ mid) ∧
    (delete_message st mid (some sid) false).1 (k_message_index_by_session sid)
        = some (.vids L) := by
  subst hsid
  have hget : get_message st mid (some msg.sessionId) = some msg := by
    simp [get_message, hm, validate_ownership]
  refine ⟨?_, by simp, ?_⟩
  · have hd : (delete_message st mid (some msg.sessionId) true).1
        = (delKey (delKey (delete_artifacts_loop mid
            ((get_artifact_ids_for_message
                (remove_message_from_session_index st msg.sessionId mid)
                mid none).getD [])
            (remove_message_from_session_index st msg.sessionId mid, 0)).1
            (k_artifact_index_by_message mid)).1 (k_message mid)).1 := by
      simp [delete_message, hget]
    rw [hd]
    rw [delKey_fst_other _ _ _
      (Ne.symm (k_message_ne_k_message_index mid msg.sessionId))]
    rw [delKey_fst_other _ _ _
      (k_message_index_ne_k_artifact_index msg.sessionId mid)]
    rw [delete_artifacts_loop_frame mid _ _
      (k_message_index_ne_k_artifact_index msg.sessionId mid) _
      (fun a _ => Ne.symm (k_artifact_ne_k_message_index a msg.sessionId))]
    exact remove_message_from_session_index_at st _ mid L hidx
  · have hd : (delete_message st mid (some msg.sessionId) false).1
        = (delKey st (k_message mid)).1 := by
      simp [delete_message, hget]
    rw [hd]
    rw [delKey_fst_other _ _ _
      (Ne.symm (k_message_ne_k_message_index mid msg.sessionId))]
    exact hidx

/-- C4 amended witness: on the fully indexed store `c4w_store`, cascade
rewrites `s1`'s message-index to the filtered (empty) list and non-cascade
leaves `["m1"]` in place. -/
theorem c4_amended_witness :
    (delete_message c4w_store "m1" (some "s1") true).1
        (k_message_index_by_session "s1")
        = some (.vids (["m1"].filter (fun i => i ≠ "m1"))) ∧
    "m1" ∉ ["m1"].filter (fun i => i ≠ "m1") ∧
    (delete_message c4w_store "m1" (some "s1") false).1
        (k_message_index_by_session "s1") = some (.vids ["m1"]) :=
  c4_amended_index_removal_only_on_cascade c4w_store "m1" "s1"
    (sampleMessage "m1" "s1" .user "hi") ["m1"] (by decide) rfl (by decide)

/-- C5: with a message id supplied, `getArtifact` reports not-found when the
message's artifact-index key is absent or does not list the artifact, even
though the primary record exists; with no message id it returns the record
whenever the primary key is present. -/
theorem c5_artifact_index_guard (st : Store) (aid mid : String) (a : Artifact)
    (ha : st (k_artifact aid) = some (.vartifact a)) :
    (st (k_artifact_index_by_message mid) = none →
      get_artifact st aid (some mid) = none) ∧
    (∀ ids, st (k_artifact_index_by_message mid) = some (.vids ids) →
      aid ∉ ids → get_artifact st aid (some mid) = none) ∧
    get_artifact st aid none = some a := by
  refine ⟨?_, ?_, ?_⟩
  · intro h
    simp [get_artifact, ha, get_artifact_ids_for_message, h]
  · intro ids h hmem
    simp [get_artifact, ha, get_artifact_ids_for_message, h, hmem]
  · simp [get_artifact, ha]

/-- C5 witness: on `c5_store`, artifact `a1` exists but is hidden behind
message `m2` (no index) and message `m1` (index without `a1`), while the
id-only fetch returns it. -/
theorem c5_witness :
    get_artifact c5_store "a1" (some "m2") = none ∧
    get_artifact c5_store "a1" (some "m1") = none ∧
    get_artifact c5_store "a1" none = some (sampleArtifact "a1") := by
  refine ⟨?_, ?_, ?_⟩
  · exact (c5_artifact_index_guard c5_store "a1" "m2" (sampleArtifact "a1")
      (by decide)).1 (by decide)
  · exact (c5_artifact_index_guard c5_store "a1" "m1" (sampleArtifact "a1")
      (by decide)).2.1 ["a2"] (by decide) (by decide)
  · exact (c5_artifact_index_guard c5_store "a1" "m1" (sampleArtifact "a1")
      (by decide)).2.2

theorem add_message_to_session_index_at (st : Store) (sid mid : String) :
    add_message_to_session_index st sid mid (k_message_index_by_session sid)
      = some (.vids (if mid ∈ message_index_ids st sid
          then message_index_ids st sid
          else message_index_ids st sid ++ [mid])) := by
  simp [add_message_to_session_index, setKey]

theorem add_message_to_session_index_other (st : Store) (sid mid k : String)
    (h : k ≠ k_message_index_by_session sid) :
    add_message_to_session_index st sid mid k = st k := by
  simp [add_message_to_session_index, setKey, h]

theorem add_artifact_to_message_index_other (st : Store) (mid aid k : String)
    (h : k ≠ k_artifact_index_by_message mid) :
    add_artifact_to_message_index st mid aid k = st k := by
  simp [add_artifact_to_message_index, setKey, h]

theorem save_artifact_other (st : Store) (a : Artifact) (k : String)
    (h : k ≠ k_artifact a.artifactId) : save_artifact st a k = st k := by
  simp [save_artifact, setKey, h]

theorem save_artifacts_loop_frame (mid : String) (arts : List Artifact)
    (k : String) (h2 : k ≠ k_artifact_index_by_message mid) :
    ∀ st : Store, (∀ a ∈ arts, k ≠ k_artifact a.artifactId) →
      save_artifacts_loop mid arts st k = st k := by
  induction arts with
  | nil =>
      intro st _
      rfl
  | cons a rest ih =>
      intro st h1
      have hstep : save_artifacts_loop mid (a :: rest) st
          = save_artifacts_loop mid rest
              (add_artifact_to_message_index (save_artifact st a) mid
                a.artifactId) := rfl
      rw [hstep, ih _ (fun b hb => h1 b (by simp [hb])),
        add_artifact_to_message_index_other _ _ _ _ h2,
        save_artifact_other _ _ _ (h1 a (by simp))]

theorem message_index_ids_congr {st1 st2 : Store} (sid : String)
    (h : st1 (k_message_index_by_session sid)
        = st2 (k_message_index_by_session sid)) :
    message_index_ids st1 sid = message_index_ids st2 sid := by
  unfold message_index_ids
  rw [h]

/-- The message-index key after `save_message`: the previous list with the
message id appended unless already present (everything else `save_message`
writes lives under other keys). -/
theorem save_message_index_val (st : Store) (m : Message) (c : Bool) :
    save_message st m c (k_message_index_by_session m.sessionId)
      = some (.vids (if m.messageId ∈ message_index_ids st m.sessionId
          then message_index_ids st m.sessionId
          else message_index_ids st m.sessionId ++ [m.messageId])) := by
  have hide : message_index_ids
      (setKey st (k_message m.messageId) (.vmessage m)) m.sessionId
      = message_index_ids st m.sessionId :=
    message_index_ids_congr _
      (setKey_other _ _ _ _
        (Ne.symm (k_message_ne_k_message_index m.messageId m.sessionId)))
  simp only [save_message]
  split
  · rw [save_artifacts_loop_frame m.messageId _ _
      (k_message_index_ne_k_artifact_index m.sessionId m.messageId) _
      (fun a _ => Ne.symm (k_artifact_ne_k_message_index a.artifactId m.sessionId)),
      add_message_to_session_index_at, hide]
  · rw [add_message_to_session_index_at, hide]

/-- C7: saving the same message twice leaves its id exactly once in the
session's message-index (given the index did not already hold a duplicate),
for any combination of cascade flags. -/
theorem c7_save_message_index_idempotent (st : Store) (m : Message)
    (c1 c2 : Bool)
    (h : (message_index_ids st m.sessionId).count m.messageId ≤ 1) :
    ∃ L, save_message (save_message st m c1) m c2
          (k_message_index_by_session m.sessionId) = some (.vids L) ∧
        L.count m.messageId = 1 := by
  have h1 := save_message_index_val st m c1
  by_cases hmem : m.messageId ∈ message_index_ids st m.sessionId
  · rw [if_pos hmem] at h1
    have hcount : (message_index_ids st m.sessionId).count m.messageId = 1 :=
      Nat.le_antisymm h (List.count_pos_iff.mpr hmem)
    have hids1 : message_index_ids (save_message st m c1) m.sessionId
        = message_index_ids st m.sessionId := by
      unfold message_index_ids
      rw [h1]
      rfl
    have h2 := save_message_index_val (save_message st m c1) m c2
    rw [hids1, if_pos hmem] at h2
    exact ⟨_, h2, hcount⟩
  · rw [if_neg hmem] at h1
    have hcount : (message_index_ids st m.sessionId
        ++ [m.messageId]).count m.messageId = 1 := by
      rw [List.count_append, List.count_eq_zero.mpr hmem]
      simp
    have hids1 : message_index_ids (save_message st m c1) m.sessionId
        = message_index_ids st m.sessionId ++ [m.messageId] := by
      unfold message_index_ids
      rw [h1]
      rfl
    have hmem1 : m.messageId ∈ message_index_ids (save_message st m c1) m.sessionId := by
      rw [hids1]
      simp
    have h2 := save_message_index_val (save_message st m c1) m c2
    rw [if_pos hmem1, hids1] at h2
    exact ⟨_, h2, hcount⟩

/-- C7 witness: saving message `m1` of session `s1` twice into the empty
store (cascade on both times) indexes `"m1"` exactly once. -/
theorem c7_witness :
    ∃ L, save_message (save_message emptyStore (sampleMessage "m1" "s1" .user "x") true)
          (sampleMessage "m1" "s1" .user "x") true
          (k_message_index_by_session "s1") = some (.vids L) ∧
        L.count "m1" = 1 :=
  c7_save_message_index_idempotent emptyStore (sampleMessage "m1" "s1" .user "x")
    true true (by decide)

theorem replace_first_info_none_spec {info : SessionInfo} :
    ∀ items : List SessionInfo, replace_first_info items info = none →
      items.countP (fun i => i.sessionId = info.sessionId) = 0 := by
  intro items
  induction items with
  | nil =>
      intro _
      rfl
  | cons a rest ih =>
      intro h
      unfold replace_first_info at h
      by_cases ha : a.sessionId = info.sessionId
      · simp [ha] at h
      · rw [if_neg ha] at h
        cases hr : replace_first_info rest info with
        | some r =>
            rw [hr] at h
            simp at h
        | none =>
            rw [List.countP_cons]
            simp [ha, ih hr]

theorem replace_first_info_some_spec {info : SessionInfo} :
    ∀ items r : List SessionInfo, replace_first_info items info = some r →
      r.countP (fun i => i.sessionId = info.sessionId)
          = items.countP (fun i => i.sessionId = info.sessionId) ∧
      r.filter (fun i => i.sessionId ≠ info.sessionId)
          = items.filter (fun i => i.sessionId ≠ info.sessionId) ∧
      0 < items.countP (fun i => i.sessionId = info.sessionId) := by
  intro items
  induction items with
  | nil =>
      intro r h
      simp [replace_first_info] at h
  | cons a rest ih =>
      intro r h
      unfold replace_first_info at h
      by_cases ha : a.sessionId = info.sessionId
      · rw [if_pos ha] at h
        injection h with h
        subst h
        refine ⟨?_, ?_, ?_⟩
        · simp [List.countP_cons, ha]
        · simp [List.filter_cons, ha]
        · simp [List.countP_cons, ha]
      · rw [if_neg ha] at h
        cases hr : replace_first_info rest info with
        | none =>
            rw [hr] at h
            simp at h
        | some r' =>
            rw [hr] at h
            injection h with h
            subst h
            obtain ⟨hc, hf, hpos⟩ := ih r' hr
            refine ⟨?_, ?_, ?_⟩
            · simp [List.countP_cons, ha, hc]
            · simp only [ne_eq, decide_not] at hf ⊢
              simp [List.filter_cons, ha, hf]
            · simpa [List.countP_cons, ha] using hpos

theorem user_index_items_congr {st1 st2 : Store} (u : String)
    (h : st1 (k_session_index_by_user u) = st2 (k_session_index_by_user u)) :
    user_index_items st1 u = user_index_items st2 u := by
  unfold user_index_items
  rw [h]

theorem add_session_to_user_index_other (st : Store) (uid : String)
    (info : SessionInfo) (k : String) (h : k ≠ k_session_index_by_user uid) :
    add_session_to_user_index st uid info k = st k := by
  simp [add_session_to_user_index, setKey, h]

/-- The user-index key after `_add_session_to_user_index`: some list whose
entries for the summary's session id collapse to exactly one (given no
pre-existing duplicate) and whose other entries are untouched. -/
theorem add_session_to_user_index_spec (st : Store) (uid : String)
    (info : SessionInfo)
    (hc : (user_index_items st uid).countP
        (fun i => i.sessionId = info.sessionId) ≤ 1) :
    ∃ l, add_session_to_user_index st uid info (k_session_index_by_user uid)
          = some (.vinfos l) ∧
        l.countP (fun i => i.sessionId = info.sessionId) = 1 ∧
        l.filter (fun i => i.sessionId ≠ info.sessionId)
          = (user_index_items st uid).filter
              (fun i => i.sessionId ≠ info.sessionId) := by
  unfold add_session_to_user_index
  cases hr : replace_first_info (user_index_items st uid) info with
  | some r =>
      obtain ⟨hcnt, hf, hpos⟩ :=
        replace_first_info_some_spec (user_index_items st uid) r hr
      refine ⟨r, by simp [setKey], ?_, hf⟩
      omega
  | none =>
      have h0 := replace_first_info_none_spec (user_index_items st uid) hr
      refine ⟨user_index_items st uid ++ [info], by simp [setKey], ?_, ?_⟩
      · simp [List.countP_append, h0]
      · simp [List.filter_append]

theorem save_message_user_index_frame (st : Store) (m : Message) (c : Bool)
    (u : String) : save_message st m c (k_session_index_by_user u)
      = st (k_session_index_by_user u) := by
  simp only [save_message]
  split
  · rw [save_artifacts_loop_frame m.messageId _ _
        (k_session_index_ne_k_artifact_index u m.messageId) _
        (fun a _ => Ne.symm (k_artifact_ne_k_session_index a.artifactId u)),
      add_message_to_session_index_other _ _ _ _
        (k_session_index_ne_k_message_index u m.sessionId),
      setKey_other _ _ _ _
        (Ne.symm (k_message_ne_k_session_index m.messageId u))]
  · rw [add_message_to_session_index_other _ _ _ _
        (k_session_index_ne_k_message_index u m.sessionId),
      setKey_other _ _ _ _
        (Ne.symm (k_message_ne_k_session_index m.messageId u))]

theorem save_messages_loop_user_index_frame (sid : String) (msgs : List Message)
    (u : String) : ∀ st : Store,
      save_messages_loop sid msgs st (k_session_index_by_user u)
        = st (k_session_index_by_user u) := by
  induction msgs with
  | nil =>
      intro st
      rfl
  | cons m rest ih =>
      intro st
      have hstep : save_messages_loop sid (m :: rest) st
          = save_messages_loop sid rest
              (save_message st { m with sessionId := sid } true) := rfl
      rw [hstep, ih, save_message_user_index_frame]

/-- C8: every `saveSession` of a session with a (truthy) owning user leaves
exactly one summary entry for that session id in the owner's index —
replacement in place when an entry existed, append otherwise, other entries
untouched — for either cascade flag; and a session whose `userId` is falsy
leaves every user index unchanged. -/
theorem c8_save_session_upserts_user_index (st : Store) (s t : Session)
    (uid : String) (c : Bool)
    (hown : s.userId = some uid) (hne : uid ≠ "")
    (hcount : (user_index_items st uid).countP
        (fun i => i.sessionId = s.sessionId) ≤ 1)
    (ht : user_id_truthy t.userId = false) :
    (∃ l, save_session st s c (k_session_index_by_user uid)
          = some (.vinfos l) ∧
        l.countP (fun i => i.sessionId = s.sessionId) = 1 ∧
        l.filter (fun i => i.sessionId ≠ s.sessionId)
          = (user_index_items st uid).filter
              (fun i => i.sessionId ≠ s.sessionId)) ∧
    (∀ u, save_session st t c (k_session_index_by_user u)
        = st (k_session_index_by_user u)) := by
  constructor
  · have htruthy : user_id_truthy s.userId = true := by
      simp [user_id_truthy, hown, hne]
    have hgetd : s.userId.getD "" = uid := by
      simp [hown]
    have hitems : user_index_items
        (setKey st (k_session s.sessionId) (.vsession s)) uid
        = user_index_items st uid :=
      user_index_items_congr _
        (setKey_other _ _ _ _
          (Ne.symm (k_session_ne_k_session_index s.sessionId uid)))
    have hc1 : (user_index_items
        (setKey st (k_session s.sessionId) (.vsession s)) uid).countP
          (fun i => i.sessionId = (mk_session_info s).sessionId) ≤ 1 := by
      rw [hitems]
      exact hcount
    obtain ⟨l, hl, hcnt, hf⟩ := add_session_to_user_index_spec
      (setKey st (k_session s.sessionId) (.vsession s)) uid
      (mk_session_info s) hc1
    rw [hitems] at hf
    refine ⟨l, ?_, hcnt, hf⟩
    simp only [save_session, htruthy, hgetd, if_true]
    split
    · rw [save_messages_loop_user_index_frame]
      exact hl
    · exact hl
  · intro u
    simp only [save_session, ht]
    have hset : setKey st (k_session t.sessionId) (.vsession t)
        (k_session_index_by_user u) = st (k_session_index_by_user u) :=
      setKey_other _ _ _ _
        (Ne.symm (k_session_ne_k_session_index t.sessionId u))
    split
    · rw [save_messages_loop_user_index_frame]
      simp only [Bool.false_eq_true, if_false]
      exact hset
    · simp only [Bool.false_eq_true, if_false]
      exact hset

/-- C8 witness: on `c8_store` (whose `u1` index already lists `s1`),
re-saving `s1` with a new title keeps exactly one `s1` entry, while saving
an ownerless session `s2` touches no user index. -/
theorem c8_witness :
    (∃ l, save_session c8_store (sampleSession "s1" (some "u1") (some "T")) true
          (k_session_index_by_user "u1") = some (.vinfos l) ∧
        l.countP (fun i => i.sessionId = "s1") = 1 ∧
        l.filter (fun i => i.sessionId ≠ "s1")
          = (user_index_items c8_store "u1").filter
              (fun i => i.sessionId ≠ "s1")) ∧
    (∀ u, save_session c8_store (sampleSession "s2" none none) true
        (k_session_index_by_user u) = c8_store (k_session_index_by_user u)) :=
  c8_save_session_upserts_user_index c8_store
    (sampleSession "s1" (some "u1") (some "T")) (sampleSession "s2" none none)
    "u1" true rfl (by decide) (by decide) rfl

/-- A session saved without cascade is read back unchanged (the user-index
upsert lives under a different key, and an ownerless read is public). -/
theorem get_session_after_save_noncascade (st : Store) (s : Session) :
    get_session (save_session st s false) s.sessionId none = some s := by
  have hsave : save_session st s false
      = (if user_id_truthy s.userId then
          add_session_to_user_index
            (setKey st (k_session s.sessionId) (.vsession s))
            (s.userId.getD "") (mk_session_info s)
        else setKey st (k_session s.sessionId) (.vsession s)) := by
    simp [save_session]
  rw [hsave]
  unfold get_session
  by_cases h : user_id_truthy s.userId = true
  · rw [if_pos h,
      add_session_to_user_index_other _ _ _ _
        (k_session_ne_k_session_index s.sessionId (s.userId.getD "")),
      setKey_same]
    simp [validate_ownership]
  · rw [if_neg h, setKey_same]
    simp [validate_ownership]

/-- C6 counterexample: the claim says the title is set to the message
content (truncated only past 50 characters), but the code strips whitespace
first.  For first user message `m6` with content `" hi"` in a title-less
session, the stored title becomes `"hi"`, not the message content. -/
theorem c6_counterexample_title_is_stripped :
    get_message c6_store "m6" (some "s6")
        = some (sampleMessage "m6" "s6" .user " hi") ∧
    (sampleMessage "m6" "s6" .user " hi").content = " hi" ∧
    c6_session.title = none ∧
    (get_session (update_session_after_message c6_store c6_session "m6" 5)
        "s6" none).map Session.title = some (some "hi") ∧
    ("hi" : String) ≠ " hi" := by
  decide

/-- C6 amended: appending to a title-less session leaves the title unset for
a non-user message; the first user message (no prior stored user message)
sets it to `title_from_content` of the message content — the
whitespace-stripped content, truncated to the first 47 characters plus an
ellipsis when the stripped content exceeds 50 characters; and a session
whose title is already set keeps it. -/
theorem c6_amended_first_user_message_title (st : Store) (session : Session)
    (mid : String) (now : Nat) (message : Message)
    (hm : get_message st mid (some session.sessionId) = some message) :
    (session.title = none → message.role ≠ Role.user →
      ∃ s', get_session (update_session_after_message st session mid now)
            session.sessionId none = some s' ∧ s'.title = none) ∧
    (session.title = none → message.role = Role.user →
      (((get_message_ids_for_session st session.sessionId none).getD
          []).filterMap
          (fun mid2 => get_message st mid2 (some session.sessionId))).filter
          (fun m => m.role = Role.user ∧ m.messageId ≠ mid) = [] →
      ∃ s', get_session (update_session_after_message st session mid now)
            session.sessionId none = some s' ∧
          s'.title = some (title_from_content message.content)) ∧
    (∀ t0, session.title = some t0 →
      ∃ s', get_session (update_session_after_message st session mid now)
            session.sessionId none = some s' ∧ s'.title = some t0) := by
  refine ⟨?_, ?_, ?_⟩
  · intro htitle hrole
    have hcond : ¬(message.role = Role.user ∧ session.title = none) := by
      simp [hrole]
    have hupd : update_session_after_message st session mid now
        = save_session st
            { session with
                updatedAt := now,
                numMessages := ((get_message_ids_for_session st
                  session.sessionId none).getD []).length }
            false := by
      simp [update_session_after_message, hm, hcond]
    rw [hupd]
    exact ⟨_, get_session_after_save_noncascade st _, htitle⟩
  · intro htitle hrole hprev
    have hcond : message.role = Role.user ∧ session.title = none :=
      ⟨hrole, htitle⟩
    have hupd : update_session_after_message st session mid now
        = save_session st
            { session with
                updatedAt := now,
                numMessages := ((get_message_ids_for_session st
                  session.sessionId none).getD []).length,
                title := some (title_from_content message.content) }
            false := by
      simp only [ne_eq] at hprev
      simp [update_session_after_message, hm, hcond]
      rw [hprev]
      simp
    rw [hupd]
    exact ⟨_, get_session_after_save_noncascade st _, rfl⟩
  · intro t0 htitle
    have hcond : ¬(message.role = Role.user ∧ session.title = none) := by
      simp [htitle]
    have hupd : update_session_after_message st session mid now
        = save_session st
            { session with
                updatedAt := now,
                numMessages := ((get_message_ids_for_session st
                  session.sessionId none).getD []).length }
            false := by
      simp [update_session_after_message, hm, hcond]
    rw [hupd]
    exact ⟨_, get_session_after_save_noncascade st _, htitle⟩

/-- C6 amended witness: on `c6_store`, an assistant message first leaves the
title unset; the first user message `" hi"` sets it to the stripped content
`"hi"`; a session whose title is already `"T"` keeps it. -/
theorem c6_amended_witness :
    (∃ s', get_session (update_session_after_message c6_store c6_session "m7" 5)
          "s6" none = some s' ∧ s'.title = none) ∧
    (∃ s', get_session (update_session_after_message c6_store c6_session "m6" 5)
          "s6" none = some s' ∧
        s'.title = some (title_from_content " hi")) ∧
    (∃ s', get_session (update_session_after_message c6_store
            (sampleSession "s6" (some "u1") (some "T")) "m6" 5)
          "s6" none = some s' ∧ s'.title = some "T") := by
  refine ⟨?_, ?_, ?_⟩
  · exact (c6_amended_first_user_message_title c6_store c6_session "m7" 5
      (sampleMessage "m7" "s6" .assistant "ok") (by decide)).1 rfl (by decide)
  · exact (c6_amended_first_user_message_title c6_store c6_session "m6" 5
      (sampleMessage "m6" "s6" .user " hi") (by decide)).2.1 rfl rfl (by decide)
  · exact (c6_amended_first_user_message_title c6_store
      (sampleSession "s6" (some "u1") (some "T")) "m6" 5
      (sampleMessage "m6" "s6" .user " hi") (by decide)).2.2 "T" rfl

/-- Attaching artifacts only rewrites each message's `artifacts` field: the
id and session back-reference of every message are preserved, in order. -/
theorem attach_artifacts_proj (st : Store) (msgs : List Message) :
    (attach_artifacts_to_messages st msgs).map
        (fun m => (m.messageId, m.sessionId))
      = msgs.map (fun m => (m.messageId, m.sessionId)) := by
  unfold attach_artifacts_to_messages
  by_cases h : msgs.isEmpty
  · rw [if_pos h, List.isEmpty_iff.mp h]
  · rw [if_neg h]
    dsimp only
    split
    · rw [List.map_map]
      rfl
    · rw [List.map_map]
      rfl

theorem attach_artifacts_length (st : Store) (msgs : List Message) :
    (attach_artifacts_to_messages st msgs).length = msgs.length := by
  have h := congrArg List.length (attach_artifacts_proj st msgs)
  simpa using h

theorem attach_artifacts_map_messageId (st : Store) (msgs : List Message) :
    (attach_artifacts_to_messages st msgs).map Message.messageId
      = msgs.map Message.messageId := by
  have h := congrArg (List.map Prod.fst) (attach_artifacts_proj st msgs)
  simpa [List.map_map, Function.comp] using h

theorem attach_artifacts_sessionId (st : Store) (msgs : List Message)
    (sid : String) (h : ∀ m ∈ msgs, m.sessionId = sid) :
    ∀ m ∈ attach_artifacts_to_messages st msgs, m.sessionId = sid := by
  intro m hm
  have hmem : (m.messageId, m.sessionId)
      ∈ msgs.map (fun m => (m.messageId, m.sessionId)) := by
    rw [← attach_artifacts_proj st msgs]
    exact List.mem_map_of_mem _ hm
  obtain ⟨m', hm', he⟩ := List.mem_map.mp hmem
  have hs : m'.sessionId = m.sessionId := congrArg Prod.snd he
  rw [← hs]
  exact h m' hm'

/-- Every message the batch fetch keeps carries the requested session id. -/
theorem batch_fetch_messages_sessionId (st : Store) (mids : List String)
    (sid : String) : ∀ m ∈ batch_fetch_messages st mids sid, m.sessionId = sid := by
  intro m hm
  unfold batch_fetch_messages at hm
  obtain ⟨mid, _, hf⟩ := List.mem_filterMap.mp hm
  cases hv : st (k_message mid) with
  | none =>
      rw [hv] at hf
      cases hf
  | some v =>
      rw [hv] at hf
      cases v with
      | vmessage m' =>
          by_cases hs : m'.sessionId = sid
          · simp only [if_pos hs] at hf
            injection hf with hf
            rw [← hf]
            exact hs
          · simp only [if_neg hs] at hf
            cases hf
      | vsession s => cases hf
      | vartifact a => cases hf
      | vinfos l => cases hf
      | vids l => cases hf

/-- C9: assembling an accessible session returns the session with an empty
message list and count zero when its message-id list is empty or absent;
otherwise it keeps exactly the batch-fetched records that exist and carry
the requested session id (in order), `none` when all were dropped, and the
returned `numMessages` equals the number of validated messages. -/
theorem c9_assembler_counts (st : Store) (sid uid : String) (meta : Session)
    (ia : Bool) (hmeta : get_session st sid (some uid) = some meta) :
    ((get_message_ids_for_session st sid (some uid)).getD [] = [] →
      get_complete_session st sid uid ia
        = some { sessionId := meta.sessionId, userId := meta.userId,
                 createdAt := meta.createdAt, updatedAt := meta.updatedAt,
                 title := meta.title, messages := [], numMessages := 0 }) ∧
    (∀ mids, get_message_ids_for_session st sid (some uid) = some mids →
      mids ≠ [] →
      (batch_fetch_messages st mids sid = [] →
        get_complete_session st sid uid ia = none) ∧
      (∀ resp, get_complete_session st sid uid ia = some resp →
        resp.numMessages = (batch_fetch_messages st mids sid).length ∧
        resp.messages.map Message.messageId
          = (batch_fetch_messages st mids sid).map Message.messageId ∧
        ∀ m ∈ resp.messages, m.sessionId = sid)) := by
  constructor
  · intro hempty
    simp [get_complete_session, hmeta, hempty]
  · intro mids hmids hne
    constructor
    · intro hbatch
      simp [get_complete_session, hmeta, hmids, hne, hbatch]
    · intro resp hresp
      by_cases hb : batch_fetch_messages st mids sid = []
      · have hnone : get_complete_session st sid uid ia = none := by
          simp [get_complete_session, hmeta, hmids, hne, hb]
        rw [hnone] at hresp
        cases hresp
      · have hval : get_complete_session st sid uid ia
            = some
                { sessionId := meta.sessionId, userId := meta.userId,
                  createdAt := meta.createdAt, updatedAt := meta.updatedAt,
                  title := meta.title,
                  messages := if ia then
                      attach_artifacts_to_messages st
                        (batch_fetch_messages st mids sid)
                    else batch_fetch_messages st mids sid,
                  numMessages := (if ia then
                      attach_artifacts_to_messages st
                        (batch_fetch_messages st mids sid)
                    else batch_fetch_messages st mids sid).length } := by
          simp [get_complete_session, hmeta, hmids, hne, hb]
        rw [hval] at hresp
        injection hresp with hresp
        subst hresp
        refine ⟨?_, ?_, ?_⟩
        · cases ia with
          | true =>
              simpa using attach_artifacts_length st (batch_fetch_messages st mids sid)
          | false => rfl
        · cases ia with
          | true =>
              simpa using attach_artifacts_map_messageId st (batch_fetch_messages st mids sid)
          | false => rfl
        · cases ia with
          | true =>
              intro m hm
              exact attach_artifacts_sessionId st _ sid
                (batch_fetch_messages_sessionId st mids sid) m (by simpa using hm)
          | false =>
              intro m hm
              exact batch_fetch_messages_sessionId st mids sid m (by simpa using hm)

/-- C9 witness: on `c9_store`, session `s8` (no index) assembles to the
empty view, and `s9` (index `["m1", "mX", "m2"]` with `mX` missing)
assembles to a view with two messages. -/
theorem c9_witness :
    get_complete_session c9_store "s8" "u9" true
        = some { sessionId := "s8", userId := some "u9", createdAt := 0,
                 updatedAt := 0, title := none, messages := [],
                 numMessages := 0 } ∧
    (∀ resp, get_complete_session c9_store "s9" "u9" true = some resp →
      resp.numMessages
          = (batch_fetch_messages c9_store ["m1", "mX", "m2"] "s9").length ∧
      resp.messages.map Message.messageId
          = (batch_fetch_messages c9_store ["m1", "mX", "m2"] "s9").map
              Message.messageId ∧
      ∀ m ∈ resp.messages, m.sessionId = "s9") := by
  constructor
  · exact (c9_assembler_counts c9_store "s8" "u9"
      (sampleSession "s8" (some "u9") none) true (by decide)).1 (by decide)
  · exact ((c9_assembler_counts c9_store "s9" "u9"
      (sampleSession "s9" (some "u9") none) true (by decide)).2
      ["m1", "mX", "m2"] (by decide) (by decide)).2

theorem remove_artifact_from_message_index_at (st : Store) (mid aid : String)
    (L : List String) (h : st (k_artifact_index_by_message mid) = some (.vids L)) :
    remove_artifact_from_message_index st mid aid (k_artifact_index_by_message mid)
      = some (.vids (L.filter (fun i => i ≠ aid))) := by
  unfold remove_artifact_from_message_index
  rw [h]
  simp [setKey]

/-- Behavior of `delete_artifact` on a stored, correctly indexed artifact: the primary
key goes away, the artifact-index is rewritten without the id, and no other
key moves. -/
theorem delete_artifact_spec (st : Store) (aid mid : String) (a : Artifact)
    (L : List String)
    (ha : st (k_artifact aid) = some (.vartifact a))
    (hidx : st (k_artifact_index_by_message mid) = some (.vids L))
    (hmem : aid ∈ L) :
    (delete_artifact st aid (some mid)).1 (k_artifact aid) = none ∧
    (delete_artifact st aid (some mid)).1 (k_artifact_index_by_message mid)
      = some (.vids (L.filter (fun i => i ≠ aid))) ∧
    ∀ k, k ≠ k_artifact aid → k ≠ k_artifact_index_by_message mid →
      (delete_artifact st aid (some mid)).1 k = st k := by
  have hget : get_artifact st aid (some mid) = some a := by
    simp [get_artifact, ha, get_artifact_ids_for_message, hidx, hmem]
  have hd : (delete_artifact st aid (some mid)).1
      = (delKey (remove_artifact_from_message_index st mid aid)
          (k_artifact aid)).1 := by
    simp [delete_artifact, hget]
  refine ⟨?_, ?_, ?_⟩
  · rw [hd]
    exact delKey_fst_same _ _
  · rw [hd, delKey_fst_other _ _ _
      (Ne.symm (k_artifact_ne_k_artifact_index aid mid))]
    exact remove_artifact_from_message_index_at st mid aid L hidx
  · intro k h1 h2
    rw [hd, delKey_fst_other _ _ _ h1,
      remove_artifact_from_message_index_other _ _ _ _ h2]

/-- The artifact loop of `delete_message` on a consistent state: every
listed artifact key goes away, the artifact-index still holds some list,
and every other key is untouched. -/
theorem delete_artifacts_loop_spec (mid : String) :
    ∀ (aids : List String) (st : Store) (n : Nat) (L : List String),
      aids.Nodup →
      st (k_artifact_index_by_message mid) = some (.vids L) →
      (∀ a ∈ aids, a ∈ L) →
      (∀ a ∈ aids, ∃ x, st (k_artifact a) = some (.vartifact x)) →
      (∀ a ∈ aids,
        (delete_artifacts_loop mid aids (st, n)).1 (k_artifact a) = none) ∧
      (∃ L', (delete_artifacts_loop mid aids (st, n)).1
          (k_artifact_index_by_message mid) = some (.vids L')) ∧
      (∀ k, (∀ a ∈ aids, k ≠ k_artifact a) →
        k ≠ k_artifact_index_by_message mid →
        (delete_artifacts_loop mid aids (st, n)).1 k = st k) := by
  intro aids
  induction aids with
  | nil =>
      intro st n L _ hidx _ _
      exact ⟨by simp, ⟨L, hidx⟩, fun k _ _ => rfl⟩
  | cons a rest ih =>
      intro st n L hnd hidx hsub hart
      obtain ⟨x, hx⟩ := hart a (by simp)
      obtain ⟨h1, h2, h3⟩ :=
        delete_artifact_spec st a mid x L hx hidx (hsub a (by simp))
      have hanotin : a ∉ rest := (List.nodup_cons.mp hnd).1
      have hndr : rest.Nodup := (List.nodup_cons.mp hnd).2
      have hstep : delete_artifacts_loop mid (a :: rest) (st, n)
          = delete_artifacts_loop mid rest
              ((delete_artifact st a (some mid)).1,
                n + (delete_artifact st a (some mid)).2) := rfl
      have hsub' : ∀ b ∈ rest, b ∈ L.filter (fun i => i ≠ a) := by
        intro b hb
        refine List.mem_filter.mpr ⟨hsub b (by simp [hb]), ?_⟩
        have hba : b ≠ a := fun he => hanotin (he ▸ hb)
        simp [hba]
      have hart' : ∀ b ∈ rest,
          ∃ y, (delete_artifact st a (some mid)).1 (k_artifact b)
            = some (.vartifact y) := by
        intro b hb
        obtain ⟨y, hy⟩ := hart b (by simp [hb])
        refine ⟨y, ?_⟩
        rw [h3 (k_artifact b)
          (fun he => hanotin ((k_artifact_inj he) ▸ hb))
          (k_artifact_ne_k_artifact_index b mid)]
        exact hy
      obtain ⟨ih1, ih2, ih3⟩ := ih (delete_artifact st a (some mid)).1
        (n + (delete_artifact st a (some mid)).2) (L.filter (fun i => i ≠ a))
        hndr h2 hsub' hart'
      refine ⟨?_, ?_, ?_⟩
      · intro b hb
        rw [hstep]
        cases List.mem_cons.mp hb with
        | inl hba =>
            subst hba
            rw [ih3 (k_artifact b)
              (fun c hc he => hanotin ((k_artifact_inj he) ▸ hc))
              (k_artifact_ne_k_artifact_index b mid)]
            exact h1
        | inr hbr => exact ih1 b hbr
      · rw [hstep]
        exact ih2
      · intro k hk1 hk2
        rw [hstep, ih3 k (fun b hb => hk1 b (by simp [hb])) hk2,
          h3 k (hk1 a (by simp)) hk2]

/-- Cascading `delete_message` on a consistently stored message (the
artifact-index either lists its artifacts or is absent with no artifacts):
the message key, its artifact-index key, and every listed artifact key go
away, and every key other than those and the session's message-index is
untouched. -/
theorem delete_message_spec (st : Store) (mid sid : String) (msg : Message)
    (aids : List String)
    (hm : st (k_message mid) = some (.vmessage msg))
    (hsid : msg.sessionId = sid)
    (hAI : st (k_artifact_index_by_message mid) = some (.vids aids) ∨
      (st (k_artifact_index_by_message mid) = none ∧ aids = []))
    (hnd : aids.Nodup)
    (hart : ∀ a ∈ aids, ∃ x, st (k_artifact a) = some (.vartifact x)) :
    (delete_message st mid (some sid) true).1 (k_message mid) = none ∧
    (delete_message st mid (some sid) true).1
        (k_artifact_index_by_message mid) = none ∧
    (∀ a ∈ aids,
      (delete_message st mid (some sid) true).1 (k_artifact a) = none) ∧
    (∀ k, k ≠ k_message mid → k ≠ k_artifact_index_by_message mid →
      (∀ a ∈ aids, k ≠ k_artifact a) → k ≠ k_message_index_by_session sid →
      (delete_message st mid (some sid) true).1 k = st k) := by
  subst hsid
  have hget : get_message st mid (some msg.sessionId) = some msg := by
    simp [get_message, hm, validate_ownership]
  have hd : (delete_message st mid (some msg.sessionId) true).1
      = (delKey (delKey (delete_artifacts_loop mid
          ((get_artifact_ids_for_message
              (remove_message_from_session_index st msg.sessionId mid)
              mid none).getD [])
          (remove_message_from_session_index st msg.sessionId mid, 0)).1
          (k_artifact_index_by_message mid)).1 (k_message mid)).1 := by
    simp [delete_message, hget]
  have h1frame : ∀ k, k ≠ k_message_index_by_session msg.sessionId →
      remove_message_from_session_index st msg.sessionId mid k = st k :=
    fun k hk => remove_message_from_session_index_other st _ mid k hk
  have hAI1 : remove_message_from_session_index st msg.sessionId mid
      (k_artifact_index_by_message mid)
      = st (k_artifact_index_by_message mid) :=
    h1frame _ (Ne.symm
      (k_message_index_ne_k_artifact_index msg.sessionId mid))
  have hart1 : ∀ a ∈ aids, ∃ x,
      remove_message_from_session_index st msg.sessionId mid (k_artifact a)
        = some (.vartifact x) := by
    intro a ha
    obtain ⟨y, hy⟩ := hart a ha
    refine ⟨y, ?_⟩
    rw [h1frame _ (k_artifact_ne_k_message_index a msg.sessionId)]
    exact hy
  cases hAI with
  | inl hidx =>
      have hval : (get_artifact_ids_for_message
          (remove_message_from_session_index st msg.sessionId mid)
          mid none).getD [] = aids := by
        simp [get_artifact_ids_for_message, hAI1, hidx]
      rw [hval] at hd
      obtain ⟨l1, l2, l3⟩ := delete_artifacts_loop_spec mid aids
        (remove_message_from_session_index st msg.sessionId mid) 0 aids hnd
        (by rw [hAI1]; exact hidx) (fun a ha => ha) hart1
      refine ⟨?_, ?_, ?_, ?_⟩
      · rw [hd]
        exact delKey_fst_same _ _
      · rw [hd, delKey_fst_other _ _ _
          (Ne.symm (k_message_ne_k_artifact_index mid mid))]
        exact delKey_fst_same _ _
      · intro a ha
        rw [hd, delKey_fst_other _ _ _
            (Ne.symm (k_message_ne_k_artifact mid a)),
          delKey_fst_other _ _ _ (k_artifact_ne_k_artifact_index a mid)]
        exact l1 a ha
      · intro k hk1 hk2 hk3 hk4
        rw [hd, delKey_fst_other _ _ _ hk1, delKey_fst_other _ _ _ hk2,
          l3 k hk3 hk2, h1frame k hk4]
  | inr hcase =>
      obtain ⟨hnone, haids⟩ := hcase
      subst haids
      have hval : (get_artifact_ids_for_message
          (remove_message_from_session_index st msg.sessionId mid)
          mid none).getD [] = [] := by
        simp [get_artifact_ids_for_message, hAI1, hnone]
      rw [hval] at hd
      refine ⟨?_, ?_, ?_, ?_⟩
      · rw [hd]
        exact delKey_fst_same _ _
      · rw [hd, delKey_fst_other _ _ _
          (Ne.symm (k_message_ne_k_artifact_index mid mid))]
        exact delKey_fst_same _ _
      · intro a ha
        cases ha
      · intro k hk1 hk2 _ hk4
        rw [hd, delKey_fst_other _ _ _ hk1, delKey_fst_other _ _ _ hk2]
        exact h1frame k hk4

/-- The message loop of `delete_session` on a consistent state: every
listed message key, artifact-index key, and listed artifact key goes away,
and every key other than those and the session's message-index is
untouched. -/
theorem delete_messages_loop_spec (sid : String) :
    ∀ (mids : List String) (st : Store) (n : Nat)
      (msgOf : String → Message) (aidsOf : String → List String),
      mids.Nodup →
      (∀ mid ∈ mids, st (k_message mid) = some (.vmessage (msgOf mid)) ∧
        (msgOf mid).sessionId = sid) →
      (∀ mid ∈ mids, st (k_artifact_index_by_message mid)
          = some (.vids (aidsOf mid)) ∨
        (st (k_artifact_index_by_message mid) = none ∧ aidsOf mid = [])) →
      (∀ mid ∈ mids, (aidsOf mid).Nodup) →
      (∀ mid ∈ mids, ∀ a ∈ aidsOf mid, ∃ x,
        st (k_artifact a) = some (.vartifact x)) →
      (∀ m1 ∈ mids, ∀ m2 ∈ mids, m1 ≠ m2 → ∀ a ∈ aidsOf m1, a ∉ aidsOf m2) →
      (∀ mid ∈ mids,
        (delete_messages_loop sid mids (st, n)).1 (k_message mid) = none) ∧
      (∀ mid ∈ mids,
        (delete_messages_loop sid mids (st, n)).1
          (k_artifact_index_by_message mid) = none) ∧
      (∀ mid ∈ mids, ∀ a ∈ aidsOf mid,
        (delete_messages_loop sid mids (st, n)).1 (k_artifact a) = none) ∧
      (∀ k, (∀ mid ∈ mids, k ≠ k_message mid ∧
          k ≠ k_artifact_index_by_message mid ∧
          (∀ a ∈ aidsOf mid, k ≠ k_artifact a)) →
        k ≠ k_message_index_by_session sid →
        (delete_messages_loop sid mids (st, n)).1 k = st k) := by
  intro mids
  induction mids with
  | nil =>
      intro st n msgOf aidsOf _ _ _ _ _ _
      exact ⟨by simp, by simp, by simp, fun k _ _ => rfl⟩
  | cons mid rest ih =>
      intro st n msgOf aidsOf hnd hmsg hAI hnda hart hdisj
      obtain ⟨hm, hs⟩ := hmsg mid (by simp)
      obtain ⟨d1, d2, d3, d4⟩ := delete_message_spec st mid sid (msgOf mid)
        (aidsOf mid) hm hs (hAI mid (by simp)) (hnda mid (by simp))
        (hart mid (by simp))
      have hmidrest : mid ∉ rest := (List.nodup_cons.mp hnd).1
      have hndr : rest.Nodup := (List.nodup_cons.mp hnd).2
      have hstep : delete_messages_loop sid (mid :: rest) (st, n)
          = delete_messages_loop sid rest
              ((delete_message st mid (some sid) true).1,
                n + (delete_message st mid (some sid) true).2) := rfl
      have hmsg' : ∀ b ∈ rest, (delete_message st mid (some sid) true).1
          (k_message b) = some (.vmessage (msgOf b)) ∧ (msgOf b).sessionId = sid := by
        intro b hb
        have hbne : b ≠ mid := fun he => hmidrest (he ▸ hb)
        refine ⟨?_, (hmsg b (by simp [hb])).2⟩
        rw [d4 (k_message b) (fun he => hbne (k_message_inj he))
          (k_message_ne_k_artifact_index b mid)
          (fun a _ => k_message_ne_k_artifact b a)
          (k_message_ne_k_message_index b sid)]
        exact (hmsg b (by simp [hb])).1
      have hAI' : ∀ b ∈ rest, (delete_message st mid (some sid) true).1
          (k_artifact_index_by_message b) = some (.vids (aidsOf b)) ∨
          ((delete_message st mid (some sid) true).1
            (k_artifact_index_by_message b) = none ∧ aidsOf b = []) := by
        intro b hb
        have hbne : b ≠ mid := fun he => hmidrest (he ▸ hb)
        have hpres : (delete_message st mid (some sid) true).1
            (k_artifact_index_by_message b)
            = st (k_artifact_index_by_message b) := by
          exact d4 _ (Ne.symm (k_message_ne_k_artifact_index mid b))
            (fun he => hbne (k_artifact_index_inj he))
            (fun a _ => Ne.symm (k_artifact_ne_k_artifact_index a b))
            (Ne.symm (k_message_index_ne_k_artifact_index sid b))
        rw [hpres]
        exact hAI b (by simp [hb])
      have hart' : ∀ b ∈ rest, ∀ a2 ∈ aidsOf b, ∃ x,
          (delete_message st mid (some sid) true).1 (k_artifact a2)
            = some (.vartifact x) := by
        intro b hb a2 ha2
        have hbne : mid ≠ b := fun he => hmidrest (he ▸ hb)
        obtain ⟨y, hy⟩ := hart b (by simp [hb]) a2 ha2
        refine ⟨y, ?_⟩
        rw [d4 _ (Ne.symm (k_message_ne_k_artifact mid a2))
          (k_artifact_ne_k_artifact_index a2 mid)
          (fun a ha he => hdisj mid (by simp) b (by simp [hb]) hbne a ha
            ((k_artifact_inj he) ▸ ha2))
          (k_artifact_ne_k_message_index a2 sid)]
        exact hy
      obtain ⟨i1, i2, i3, i4⟩ := ih (delete_message st mid (some sid) true).1
        (n + (delete_message st mid (some sid) true).2) msgOf aidsOf hndr
        hmsg' hAI' (fun b hb => hnda b (by simp [hb])) hart'
        (fun m1 h1 m2 h2 hne12 => hdisj m1 (by simp [h1]) m2 (by simp [h2]) hne12)
      have hheadframe : ∀ q, q ≠ k_message_index_by_session sid →
          (∀ b ∈ rest, q ≠ k_message b ∧ q ≠ k_artifact_index_by_message b ∧
            (∀ a2 ∈ aidsOf b, q ≠ k_artifact a2)) →
          (delete_messages_loop sid (mid :: rest) (st, n)).1 q
            = (delete_message st mid (some sid) true).1 q := by
        intro q hq hqb
        rw [hstep]
        exact i4 q hqb hq
      refine ⟨?_, ?_, ?_, ?_⟩
      · intro b hb
        cases List.mem_cons.mp hb with
        | inl hba =>
            subst hba
            rw [hheadframe _ (k_message_ne_k_message_index b sid) ?_]
            · exact d1
            · intro b2 hb2
              have hne2 : b ≠ b2 := fun he => hmidrest (he ▸ hb2)
              exact ⟨fun he => hne2 (k_message_inj he),
                k_message_ne_k_artifact_index b b2,
                fun a2 _ => k_message_ne_k_artifact b a2⟩
        | inr hbr =>
            rw [hstep]
            exact i1 b hbr
      · intro b hb
        cases List.mem_cons.mp hb with
        | inl hba =>
            subst hba
            rw [hheadframe _
              (Ne.symm (k_message_index_ne_k_artifact_index sid b)) ?_]
            · exact d2
            · intro b2 hb2
              have hne2 : b ≠ b2 := fun he => hmidrest (he ▸ hb2)
              exact ⟨Ne.symm (k_message_ne_k_artifact_index b2 b),
                fun he => hne2 (k_artifact_index_inj he),
                fun a2 _ => Ne.symm (k_artifact_ne_k_artifact_index a2 b)⟩
        | inr hbr =>
            rw [hstep]
            exact i2 b hbr
      · intro b hb a ha
        cases List.mem_cons.mp hb with
        | inl hba =>
            subst hba
            rw [hheadframe _ (k_artifact_ne_k_message_index a sid) ?_]
            · exact d3 a ha
            · intro b2 hb2
              have hne2 : b ≠ b2 := fun he => hmidrest (he ▸ hb2)
              refine ⟨Ne.symm (k_message_ne_k_artifact b2 a),
                k_artifact_ne_k_artifact_index a b2, ?_⟩
              intro a2 ha2 he
              exact hdisj b (by simp) b2 (by simp [hb2]) hne2 a ha
                ((k_artifact_inj he) ▸ ha2)
        | inr hbr =>
            rw [hstep]
            exact i3 b hbr a ha
      · intro k hk hkmi
        rw [hstep, i4 k (fun b hb => hk b (by simp [hb])) hkmi]
        obtain ⟨hk1, hk2, hk3⟩ := hk mid (by simp)
        exact d4 k hk1 hk2 hk3 hkmi

theorem remove_session_from_user_index_at (st : Store) (uid sid : String)
    (infos : List SessionInfo)
    (h : st (k_session_index_by_user uid) = some (.vinfos infos)) :
    remove_session_from_user_index st uid sid
      = setKey st (k_session_index_by_user uid)
          (.vinfos (infos.filter (fun i => i.sessionId ≠ sid))) := by
  unfold remove_session_from_user_index
  rw [h]

/-- C2: cascading `deleteSession` by the true owner of a consistently
stored session removes the session record, every indexed message record,
every artifact record listed in those messages' artifact-indexes, the
message-index key, every deleted message's artifact-index key, and the
session's entry in its owner's user index; subsequent fetches of any of
those ids (with any ownership argument) return not-found. -/
theorem c2_cascade_completeness (st : Store) (sid uid : String) (s : Session)
    (infos : List SessionInfo) (mids : List String)
    (msgOf : String → Message) (aidsOf : String → List String)
    (hs : st (k_session sid) = some (.vsession s))
    (hsid : s.sessionId = sid)
    (hown : s.userId = some uid) (hune : uid ≠ "")
    (hUI : st (k_session_index_by_user uid) = some (.vinfos infos))
    (hMI : st (k_message_index_by_session sid) = some (.vids mids))
    (hndm : mids.Nodup)
    (hmsg : ∀ mid ∈ mids, st (k_message mid)
        = some (.vmessage (msgOf mid)) ∧ (msgOf mid).sessionId = sid)
    (hAI : ∀ mid ∈ mids, st (k_artifact_index_by_message mid)
        = some (.vids (aidsOf mid)) ∨
      (st (k_artifact_index_by_message mid) = none ∧ aidsOf mid = []))
    (hnda : ∀ mid ∈ mids, (aidsOf mid).Nodup)
    (hart : ∀ mid ∈ mids, ∀ a ∈ aidsOf mid, ∃ x,
      st (k_artifact a) = some (.vartifact x))
    (hdisj : ∀ m1 ∈ mids, ∀ m2 ∈ mids, m1 ≠ m2 →
      ∀ a ∈ aidsOf m1, a ∉ aidsOf m2) :
    (∀ u, get_session (delete_session st sid (some uid) true).1 sid u = none) ∧
    (∀ mid ∈ mids, ∀ x,
      get_message (delete_session st sid (some uid) true).1 mid x = none) ∧
    (∀ mid ∈ mids, ∀ a ∈ aidsOf mid, ∀ y,
      get_artifact (delete_session st sid (some uid) true).1 a y = none) ∧
    (delete_session st sid (some uid) true).1
        (k_message_index_by_session sid) = none ∧
    (∀ mid ∈ mids, (delete_session st sid (some uid) true).1
        (k_artifact_index_by_message mid) = none) ∧
    (delete_session st sid (some uid) true).1 (k_session_index_by_user uid)
      = some (.vinfos (infos.filter (fun i => i.sessionId ≠ sid))) := by
  have hget : get_session st sid (some uid) = some s := by
    simp [get_session, hs, validate_ownership, hown]
  have htruthy : user_id_truthy s.userId = true := by
    simp [user_id_truthy, hown, hune]
  have hd : (delete_session st sid (some uid) true).1
      = (delKey (delKey (delete_messages_loop sid
          ((get_message_ids_for_session
              (remove_session_from_user_index st uid sid) sid none).getD [])
          (remove_session_from_user_index st uid sid, 0)).1
          (k_message_index_by_session sid)).1 (k_session sid)).1 := by
    simp [delete_session, hget, htruthy, hown, hsid, user_id_truthy, hune]
  have hst1 := remove_session_from_user_index_at st uid sid infos hUI
  have hst1UI : remove_session_from_user_index st uid sid
      (k_session_index_by_user uid)
      = some (.vinfos (infos.filter (fun i => i.sessionId ≠ sid))) := by
    rw [hst1]
    exact setKey_same _ _ _
  have hst1other : ∀ k, k ≠ k_session_index_by_user uid →
      remove_session_from_user_index st uid sid k = st k := by
    intro k hk
    rw [hst1]
    exact setKey_other _ _ _ _ hk
  have hmids1 : (get_message_ids_for_session
      (remove_session_from_user_index st uid sid) sid none).getD [] = mids := by
    simp [get_message_ids_for_session,
      hst1other _ (Ne.symm (k_session_index_ne_k_message_index uid sid)), hMI]
  rw [hmids1] at hd
  have hmsg1 : ∀ mid ∈ mids, remove_session_from_user_index st uid sid
      (k_message mid) = some (.vmessage (msgOf mid)) ∧
      (msgOf mid).sessionId = sid := by
    intro mid hmid
    refine ⟨?_, (hmsg mid hmid).2⟩
    rw [hst1other _ (k_message_ne_k_session_index mid uid)]
    exact (hmsg mid hmid).1
  have hAI1 : ∀ mid ∈ mids, remove_session_from_user_index st uid sid
      (k_artifact_index_by_message mid) = some (.vids (aidsOf mid)) ∨
      (remove_session_from_user_index st uid sid
        (k_artifact_index_by_message mid) = none ∧ aidsOf mid = []) := by
    intro mid hmid
    rw [hst1other _ (Ne.symm (k_session_index_ne_k_artifact_index uid mid))]
    exact hAI mid hmid
  have hart1 : ∀ mid ∈ mids, ∀ a ∈ aidsOf mid, ∃ x,
      remove_session_from_user_index st uid sid (k_artifact a)
        = some (.vartifact x) := by
    intro mid hmid a ha
    obtain ⟨x, hx⟩ := hart mid hmid a ha
    refine ⟨x, ?_⟩
    rw [hst1other _ (k_artifact_ne_k_session_index a uid)]
    exact hx
  obtain ⟨L1, L2, L3, L4⟩ := delete_messages_loop_spec sid mids
    (remove_session_from_user_index st uid sid) 0 msgOf aidsOf hndm hmsg1
    hAI1 hnda hart1 hdisj
  refine ⟨?_, ?_, ?_, ?_, ?_, ?_⟩
  · intro u
    have hnone : (delete_session st sid (some uid) true).1 (k_session sid)
        = none := by
      rw [hd]
      exact delKey_fst_same _ _
    simp [get_session, hnone]
  · intro mid hmid x
    have hnone : (delete_session st sid (some uid) true).1 (k_message mid)
        = none := by
      rw [hd, delKey_fst_other _ _ _ (Ne.symm (k_session_ne_k_message sid mid)),
        delKey_fst_other _ _ _ (k_message_ne_k_message_index mid sid)]
      exact L1 mid hmid
    simp [get_message, hnone]
  · intro mid hmid a ha y
    have hnone : (delete_session st sid (some uid) true).1 (k_artifact a)
        = none := by
      rw [hd, delKey_fst_other _ _ _ (Ne.symm (k_session_ne_k_artifact sid a)),
        delKey_fst_other _ _ _ (k_artifact_ne_k_message_index a sid)]
      exact L3 mid hmid a ha
    simp [get_artifact, hnone]
  · rw [hd, delKey_fst_other _ _ _
      (Ne.symm (k_session_ne_k_message_index sid sid))]
    exact delKey_fst_same _ _
  · intro mid hmid
    rw [hd, delKey_fst_other _ _ _
        (Ne.symm (k_session_ne_k_artifact_index sid mid)),
      delKey_fst_other _ _ _
        (Ne.symm (k_message_index_ne_k_artifact_index sid mid))]
    exact L2 mid hmid
  · rw [hd, delKey_fst_other _ _ _
        (Ne.symm (k_session_ne_k_session_index sid uid)),
      delKey_fst_other _ _ _ (k_session_index_ne_k_message_index uid sid),
      L4 (k_session_index_by_user uid) ?_
        (k_session_index_ne_k_message_index uid sid)]
    · exact hst1UI
    · intro mid hmid
      exact ⟨Ne.symm (k_message_ne_k_session_index mid uid),
        k_session_index_ne_k_artifact_index uid mid,
        fun a _ => Ne.symm (k_artifact_ne_k_session_index a uid)⟩

/-- C2 witness: cascading deletion of `s1` by `u1` on the consistently
stored `c2_store` leaves every listed id unfetchable and both index keys
gone, and filters `s1` out of `u1`'s user index. -/
theorem c2_witness :
    (∀ u, get_session (delete_session c2_store "s1" (some "u1") true).1
        "s1" u = none) ∧
    (∀ mid ∈ ["m1", "m2"], ∀ x,
      get_message (delete_session c2_store "s1" (some "u1") true).1 mid x
        = none) ∧
    (∀ mid ∈ ["m1", "m2"], ∀ a ∈ c2_aids mid, ∀ y,
      get_artifact (delete_session c2_store "s1" (some "u1") true).1 a y
        = none) ∧
    (delete_session c2_store "s1" (some "u1") true).1
        (k_message_index_by_session "s1") = none ∧
    (∀ mid ∈ ["m1", "m2"], (delete_session c2_store "s1" (some "u1") true).1
        (k_artifact_index_by_message mid) = none) ∧
    (delete_session c2_store "s1" (some "u1") true).1
        (k_session_index_by_user "u1")
      = some (.vinfos
          ([mk_session_info (sampleSession "s1" (some "u1") none)].filter
            (fun i => i.sessionId ≠ "s1"))) := by
  refine c2_cascade_completeness c2_store "s1" "u1"
    (sampleSession "s1" (some "u1") none)
    [mk_session_info (sampleSession "s1" (some "u1") none)] ["m1", "m2"]
    (fun mid => if mid = "m1" then sampleMessage "m1" "s1" .user "a"
      else sampleMessage "m2" "s1" .assistant "b")
    c2_aids (by decide) rfl rfl (by decide) (by decide) (by decide) (by decide)
    ?_ ?_ ?_ ?_ ?_
  · intro mid hmid
    fin_cases hmid
    · exact ⟨by decide, by decide⟩
    · exact ⟨by decide, by decide⟩
  · intro mid hmid
    fin_cases hmid
    · left
      decide
    · right
      exact ⟨by decide, by decide⟩
  · intro mid hmid
    fin_cases hmid
    · decide
    · decide
  · intro mid hmid a ha
    fin_cases hmid
    · have ha' : a = "a1" := by
        simpa [c2_aids] using ha
      subst ha'
      exact ⟨sampleArtifact "a1", by decide⟩
    · simp [c2_aids] at ha
  · intro m1 h1 m2 h2 hne a ha
    fin_cases h1 <;> fin_cases h2
    · exact absurd rfl hne
    · simp [c2_aids]
    · simp [c2_aids] at ha
    · exact absurd rfl hne

/-- C10: a falsy owner argument means public access: `getSession` with the
empty string as owner returns any stored session regardless of its owner,
and `getMessage` with an empty-string session id skips the back-reference
check. -/
theorem c10_empty_owner_is_public (st : Store) (sid mid : String)
    (s : Session) (m : Message)
    (hs : st (k_session sid) = some (.vsession s))
    (hm : st (k_message mid) = some (.vmessage m)) :
    get_session st sid (some "") = some s ∧
    get_message st mid (some "") = some m := by
  constructor
  · simp [get_session, hs, validate_ownership]
  · simp [get_message, hm, validate_ownership]

/-- C10 witness: on `c10_store`, the empty-string owner fetches `s1` (owned
by `u1`) and the empty-string session id fetches `m1`. -/
theorem c10_witness :
    get_session c10_store "s1" (some "")
        = some (sampleSession "s1" (some "u1") none) ∧
    get_message c10_store "m1" (some "")
        = some (sampleMessage "m1" "s1" .user "y") := by
  exact c10_empty_owner_is_public c10_store "s1" "m1"
    (sampleSession "s1" (some "u1") none) (sampleMessage "m1" "s1" .user "y")
    (by decide) (by decide)

end MMChat
